import Mathlib

/-!
# PrusaSlicer: infill base (`Fill/FillBase.hpp`) and bed grid (`MultipleBeds.cpp`)

A shallow embedding of the parts of `src/libslic3r/Fill/FillBase.hpp` and
`src/libslic3r/MultipleBeds.cpp` that the verified properties talk about.

* `float` / `double` data are IEEE-754 binary32 / binary64 values given by their
  bit fields; the comparison operators follow IEEE-754 (a NaN operand makes
  every ordered comparison false, infinities lie beyond every finite value).
* `int` / `coord_t` are 32-bit two's-complement integers: every arithmetic
  result is reduced by `wrap32`.
* `size_t` is an unsigned 64-bit integer: natural numbers below `2 ^ 64`.
-/

set_option linter.dupNamespace false
set_option linter.unusedVariables false

namespace Slic3r

/-! ## IEEE-754 binary32 and binary64 data -/

/-- A binary32 (`float`) datum: sign bit, 8-bit biased exponent, 23-bit fraction. -/
structure F32 where
  sign : Bool
  expo : Fin 256
  frac : Fin 8388608
deriving DecidableEq

/-- A binary64 (`double`) datum: sign bit, 11-bit biased exponent, 52-bit fraction. -/
structure F64 where
  sign : Bool
  expo : Fin 2048
  frac : Fin 4503599627370496
deriving DecidableEq

namespace F32

/-- NaN: all exponent bits set and a non-zero fraction. -/
def isNaN (a : F32) : Bool := a.expo.val == 255 && a.frac.val != 0

/-- Magnitude of the datum in units of `2 ^ (-149)` (the smallest subnormal):
`frac` for a subnormal, `(2 ^ 23 + frac) * 2 ^ (expo - 1)` for a normal number.
An infinity (`expo = 255`, `frac = 0`) gets `2 ^ 277`, that is `2 ^ 128` in
units of one, which is above every finite magnitude. -/
def mag (a : F32) : Nat :=
  if a.expo.val = 0 then a.frac.val else (8388608 + a.frac.val) * 2 ^ (a.expo.val - 1)

/-- Signed value in units of `2 ^ (-149)`. -/
def scaled (a : F32) : Int := if a.sign then -(a.mag : Int) else (a.mag : Int)

/-- The rational value of the datum (an infinity is valued `± 2 ^ 128`; the value
of a NaN is not meaningful). -/
def toRat (a : F32) : ℚ := (a.scaled : ℚ) / 2 ^ 149

/-- The C++ operator `a < b` on `float`: false when an operand is NaN, otherwise
the order of the values (`-0 < +0` is false). -/
def lt (a b : F32) : Bool := !a.isNaN && !b.isNaN && decide (a.scaled < b.scaled)

/-- The C++ operator `a > b` on `float`. -/
def gt (a b : F32) : Bool := !a.isNaN && !b.isNaN && decide (b.scaled < a.scaled)

/-- The C++ operator `a <= b` on `float`: false when an operand is NaN, otherwise
the order of the values. -/
def le (a b : F32) : Bool := !a.isNaN && !b.isNaN && decide (a.scaled ≤ b.scaled)

/-- The C++ operator `a != b` on `float`: true when an operand is NaN, otherwise
whether the values differ (`-0 != +0` is false). -/
def ne (a b : F32) : Bool := a.isNaN || b.isNaN || decide (a.scaled ≠ b.scaled)

/-- The literal `0.f` (also the `float` conversion of the `int` literal `0`). -/
def zero : F32 := ⟨false, 0, 0⟩

/-- The literal `0.9999f`: bit pattern `0x3F7FF972`, the binary32 nearest to 9999/10000. -/
def lit_0_9999 : F32 := ⟨false, 126, 8386930⟩

/-- The literal `0.05f`: bit pattern `0x3D4CCCCD`, the binary32 nearest to 1/20. -/
def lit_0_05 : F32 := ⟨false, 122, 5033165⟩

/-- The literal `1000.f`: bit pattern `0x447A0000`. -/
def lit_1000 : F32 := ⟨false, 136, 7995392⟩

/-- The value `0.99995f`: bit pattern `0x3F7FFCB9`, the binary32 nearest to 99995/100000. -/
def lit_0_99995 : F32 := ⟨false, 126, 8387769⟩

/-- The value `0.02f`: bit pattern `0x3CA3D70A`, the binary32 nearest to 1/50. -/
def lit_0_02 : F32 := ⟨false, 121, 2348810⟩

/-- The constant `FLT_MAX` of `<cfloat>`: bit pattern `0x7F7FFFFF`. -/
def FLT_MAX : F32 := ⟨false, 254, 8388607⟩

/-- The value `float(M_PI/2.)`: `M_PI` is the `double` nearest to pi
(`0x400921FB54442D18`), halving is exact, and the conversion to `float` rounds
to the bit pattern `0x3FC90FDB`. -/
def M_PI_2 : F32 := ⟨false, 127, 4788187⟩

end F32

namespace F64

/-- The literal `0.` (also the `double` conversion of `0.f`). -/
def zero : F64 := ⟨false, 0, 0⟩

/-- The literal `0.0125`: bit pattern `0x3F8999999999999A`. -/
def lit_0_0125 : F64 := ⟨false, 1016, 2702159776422298⟩

end F64

/-! ## `struct FillParams` -/

/-- The parameter set `struct FillParams`, with the member initialisers of the struct. -/
structure FillParams where
  density : F32 := F32.zero
  anchor_length : F32 := F32.lit_1000
  anchor_length_max : F32 := F32.lit_1000
  resolution : F64 := F64.lit_0_0125
  dont_adjust : Bool := true
  monotonic : Bool := false
  complete : Bool := false
  use_arachne : Bool := false
  layer_height : F64 := F64.zero
  prefer_clockwise_movements : Bool := false
deriving DecidableEq

namespace FillParams

/-- Source: `bool full_infill() const { return density > 0.9999f; }` -/
def full_infill (p : FillParams) : Bool := F32.gt p.density F32.lit_0_9999

/-- Source: `bool dont_connect() const { return anchor_length_max < 0.05f; }` -/
def dont_connect (p : FillParams) : Bool := F32.lt p.anchor_length_max F32.lit_0_05

end FillParams

/-! ## `class Fill` -/

/-- Width in bits of `size_t`. -/
def SIZE_BITS : Nat := 64

/-- Conversion of an integer to `size_t`: reduction modulo `2 ^ 64`, so that
`size_t(-1)` is the largest value. -/
def size_t_cast (z : Int) : Nat := (z % (2 : Int) ^ SIZE_BITS).toNat

/-- Addition on `size_t`: modulo `2 ^ 64`. -/
def size_t_add (a b : Nat) : Nat := (a + b) % 2 ^ SIZE_BITS

/-- A 2D point in scaled integer coordinates (`Point(x, y)`). -/
structure Point where
  x : Int
  y : Int
deriving DecidableEq

/-- Modelled from the spec: the class `BoundingBox` of `libslic3r/BoundingBox.hpp`
is not among the sources. A 2D scaled box given by its two corners; the constructor
`BoundingBox(pmin, pmax)` stores the corners as they are given, an inverted box
being the "unset" value. -/
structure BoundingBox where
  min : Point
  max : Point
deriving DecidableEq

/-- The public data members of `class Fill`. A pointer member is `none` when it
is `nullptr` and `some address` otherwise. -/
structure Fill where
  layer_id : Nat
  z : F64
  spacing : F64
  overlap : F64
  angle : F32
  zigzag_infill_angles : List Int
  link_max_length : Int
  loop_clipping : Int
  bounding_box : BoundingBox
  adapt_fill_octree : Option Nat
  print_config : Option Nat
  print_object_config : Option Nat
deriving DecidableEq

namespace Fill

/-- The protected constructor `Fill()`, with its member initialiser list and the
default member initialisers of the three pointers; `zigzag_infill_angles` is
default-constructed, hence empty. -/
def Fill : Fill where
  layer_id := size_t_cast (-1)
  z := F64.zero
  spacing := F64.zero
  overlap := F64.zero
  angle := F32.FLT_MAX
  zigzag_infill_angles := []
  link_max_length := 0
  loop_clipping := 0
  bounding_box := ⟨⟨0, 0⟩, ⟨-1, -1⟩⟩
  adapt_fill_octree := none
  print_config := none
  print_object_config := none

/-- Source: `void set_bounding_box(const Slic3r::BoundingBox &bbox) { bounding_box = bbox; }` -/
def set_bounding_box (f : Slic3r.Fill) (bbox : BoundingBox) : Slic3r.Fill :=
  { f with bounding_box := bbox }

/-- Source: `virtual float _layer_angle(size_t idx) const { return (idx & 1) ? float(M_PI/2.) : 0; }` -/
def _layer_angle (idx : Nat) : F32 := if idx &&& 1 ≠ 0 then F32.M_PI_2 else F32.zero

end Fill

/-! ## Infill connector (body in `FillBase.cpp`) -/

/-- A polyline: a sequence of 2D points. -/
abbrev Polyline := List Point

/-- Modelled from the spec: the geometry that the connector of spec 4.5 consults and
that the spec leaves to the implementation. For a boundary and two consecutive
lines: the two candidate boundary-hugging arcs from the end of the first line to
the start of the second; the length of an arc; whether a connection would route
through the exterior of the region; whether an arc would reverse the net travel
direction (monotonic mode); and the `link_max_length` in force (0 = unlimited). -/
structure ConnectorGeometry (Boundary : Type) where
  arcs : Boundary → Polyline → Polyline → Polyline × Polyline
  arc_length : Polyline → Int
  through_exterior : Boundary → Polyline → Bool
  reverses_travel : Polyline → Bool
  link_max_length : Int

namespace Fill

/-- Modelled from the spec: spec 4.5, "evaluate the two candidate boundary-hugging
arcs ...; choose the shorter arc" (a tie goes to the first candidate); in monotonic
mode the choice is overridden "whenever the shorter arc would reverse net travel
direction". -/
def choose_arc {Boundary : Type} (g : ConnectorGeometry Boundary) (params : FillParams)
    (boundary : Boundary) (line next : Polyline) : Polyline :=
  let c := g.arcs boundary line next
  let shorter := if g.arc_length c.2 < g.arc_length c.1 then c.2 else c.1
  let longer := if g.arc_length c.2 < g.arc_length c.1 then c.1 else c.2
  if params.monotonic && g.reverses_travel shorter then longer else shorter

/-- Modelled from the spec: spec 4.5, "Reject the connection ... when any of:
`params.dont_connect()` is true (anchor_length_max < 0.05); the chosen arc length
exceeds link_max_length (when link_max_length ≠ 0); the connection would route
through the region's exterior". -/
def connection_rejected {Boundary : Type} (g : ConnectorGeometry Boundary)
    (params : FillParams) (boundary : Boundary) (arc : Polyline) : Bool :=
  params.dont_connect ||
    (g.link_max_length != 0 && decide (g.link_max_length < g.arc_length arc)) ||
    g.through_exterior boundary arc

/-- Modelled from the spec: the pass of spec 4.5 over the consecutive lines, `current`
being the polyline under construction: a rejected connection emits `current` and
starts a new polyline with the next line, an accepted one appends the arc and the
next line to `current`. -/
def connect_lines {Boundary : Type} (g : ConnectorGeometry Boundary) (params : FillParams)
    (boundary : Boundary) : Polyline → List Polyline → List Polyline
  | current, [] => [current]
  | current, next :: rest =>
    let arc := choose_arc g params boundary current next
    if connection_rejected g params boundary arc then
      current :: connect_lines g params boundary next rest
    else
      connect_lines g params boundary (current ++ arc ++ next) rest

/-- Modelled from the spec: the body of `Fill::connect_infill` is in `FillBase.cpp`,
which is not among the sources; `FillBase.hpp` declares its three overloads, which
differ in the representation of the boundary. Spec 4.5:
`connect(raw_lines, boundary, spacing, params) → merged_polylines`, the raw lines
arriving in scan order. The result is what the call appends to `polylines_out`. -/
def connect_infill {Boundary : Type} (g : ConnectorGeometry Boundary)
    (infill_ordered : List Polyline) (boundary : Boundary) (spacing : F64)
    (params : FillParams) : List Polyline :=
  match infill_ordered with
  | [] => []
  | first :: rest => connect_lines g params boundary first rest

/-- A sample geometry for evaluating the connector: the boundary is not consulted,
both candidate arcs are empty, of length 0, inside the region and not reversing;
links are unlimited. -/
def sample_geometry : ConnectorGeometry Unit where
  arcs := fun _ _ _ => ([], [])
  arc_length := fun _ => 0
  through_exterior := fun _ _ => false
  reverses_travel := fun _ => false
  link_max_length := 0

end Fill

/-! ## `namespace BedsGrid` of `MultipleBeds.cpp` -/

namespace BedsGrid

deriving instance DecidableEq for Except

/-- Reduction of an integer to the range of the 32-bit two's-complement `int`. -/
def wrap32 (z : Int) : Int := (z + 2147483648) % 4294967296 - 2147483648

/-- The operation `a + b` on `int`. -/
def add32 (a b : Int) : Int := wrap32 (a + b)

/-- The operation `a - b` on `int`. -/
def sub32 (a b : Int) : Int := wrap32 (a - b)

/-- The operation `a * b` on `int`. -/
def mul32 (a b : Int) : Int := wrap32 (a * b)

/-- The operation `-a` on `int`. -/
def neg32 (a : Int) : Int := wrap32 (-a)

/-- The function `std::abs(a)` on `int`. -/
def abs32 (a : Int) : Int := wrap32 |a|

/-- The constant `std::numeric_limits<int>::max()`. -/
def INT_MAX : Int := 2147483647

/-- The values an `int` can hold. -/
def IsInt32 (z : Int) : Prop := -2147483648 ≤ z ∧ z ≤ 2147483647

instance (z : Int) : Decidable (IsInt32 z) := by
  unfold IsInt32
  infer_instance

/-- Modelled from the spec: the type `GridCoords` is declared in `MultipleBeds.hpp`,
which is not among the sources; by its use in `MultipleBeds.cpp` it is a pair of
`int` coordinates read by `x()` and `y()`. The type `Index` of the same header is `int`. -/
structure GridCoords where
  x : Int
  y : Int
deriving DecidableEq

/-- Both coordinates are `int` values. -/
def GridCoords.IsInt32 (c : GridCoords) : Prop := BedsGrid.IsInt32 c.x ∧ BedsGrid.IsInt32 c.y

instance (c : GridCoords) : Decidable c.IsInt32 := by
  unfold GridCoords.IsInt32
  infer_instance

/-- Source: `Index grid_coords_abs2index(GridCoords coords)` -/
def grid_coords_abs2index (coords : GridCoords) : Int :=
  let cx := abs32 coords.x
  let cy := abs32 coords.y
  let x := add32 cx 1
  let y := add32 cy 1
  let a := max x y
  if x = a ∧ y = a then
    sub32 (mul32 a a) 1
  else if x = a then
    sub32 (add32 (sub32 (mul32 a a) (mul32 2 (sub32 a 1))) cy) 1
  else
    sub32 (add32 (sub32 (mul32 a a) (sub32 a 1)) cx) 1

/-- Source: `const int quadrant_offset{std::numeric_limits<int>::max() / 4};` -/
def quadrant_offset : Int := Int.tdiv INT_MAX 4

/-- Source: `Index grid_coords2index(const GridCoords &coords)`; `Except.error` carries the
message of the `std::runtime_error` that is thrown. -/
def grid_coords2index (coords : GridCoords) : Except String Int :=
  let index := grid_coords_abs2index coords
  if index ≥ quadrant_offset then
    Except.error "Object is too far from center!"
  else if coords.x ≥ 0 ∧ coords.y ≥ 0 then
    Except.ok index
  else if coords.x ≥ 0 ∧ coords.y < 0 then
    Except.ok (add32 quadrant_offset index)
  else if coords.x < 0 ∧ coords.y ≥ 0 then
    Except.ok (add32 (mul32 2 quadrant_offset) index)
  else
    Except.ok (add32 (mul32 3 quadrant_offset) index)

/-- The loop `while ((a+1)*(a+1) < id) ++a;` of `index2grid_coords`, run for at most
`fuel` tests of its condition: `some a` is the value of `a` when the loop is
left, `none` means the loop is still running when the fuel is used up. -/
def index2grid_while : Nat → Int → Int → Option Int
  | 0, _, _ => none
  | fuel + 1, a, id =>
    if mul32 (add32 a 1) (add32 a 1) < id then index2grid_while fuel (add32 a 1) id
    else some a

/-- Source: `GridCoords index2grid_coords(Index index)`, its loop run with `fuel`: `none` when
the fuel does not suffice, `some (Except.error msg)` when the function throws,
`some (Except.ok coords)` when it returns. -/
def index2grid_coords (fuel : Nat) (index : Int) : Option (Except String GridCoords) :=
  if index < 0 then
    some (Except.error "Negative bed index cannot be translated to coords!")
  else
    let quadrant := Int.tdiv index quadrant_offset
    let index := Int.tmod index quadrant_offset
    if index = 0 then
      some (Except.ok ⟨0, 0⟩)
    else
      let id := add32 index 1
      match index2grid_while fuel 1 id with
      | none => none
      | some a =>
        let id := sub32 id (mul32 a a)
        let result : GridCoords := if id ≤ a then ⟨a, sub32 id 1⟩ else ⟨sub32 (sub32 id a) 1, a⟩
        if quadrant = 1 then
          some (Except.ok ⟨result.x, neg32 result.y⟩)
        else if quadrant = 2 then
          some (Except.ok ⟨neg32 result.x, result.y⟩)
        else if quadrant = 3 then
          some (Except.ok ⟨neg32 result.x, neg32 result.y⟩)
        else if quadrant ≠ 0 then
          some (Except.error "Impossible bed index > max int!")
        else
          some (Except.ok result)

end BedsGrid

/-! ## `class MultipleBeds` of `MultipleBeds.cpp` -/

/-- Modelled from the spec: the class `MultipleBeds` is declared in `MultipleBeds.hpp`,
which is not among the sources. These are the data members that `clear_inst_map`,
`set_instance_bed`, `inst_map_updated`, `request_next_bed` and `set_active_bed`
read or write in `MultipleBeds.cpp`: the `std::map<ObjectID, int>` is the list of
its entries in iteration order, an `ObjectID` being a natural number, and the
`int` members are integers. -/
structure MultipleBeds where
  m_inst_to_bed : List (Nat × Int)
  m_number_of_beds : Int
  m_active_bed : Int
  m_show_next_bed : Bool
deriving DecidableEq

namespace MultipleBeds

open BedsGrid

/-- Modelled from the spec: `get_number_of_beds()` is defined in `MultipleBeds.hpp`,
which is not among the sources; by its name and its use in `request_next_bed` it
reads `m_number_of_beds`. The bound `get_max_beds()` of the same header is the
parameter `max_beds` of the functions below. -/
def get_number_of_beds (s : MultipleBeds) : Int := s.m_number_of_beds

/-- Source: `void MultipleBeds::clear_inst_map()` -/
def clear_inst_map (s : MultipleBeds) : MultipleBeds :=
  { s with m_inst_to_bed := [] }

/-- The assignment `m[id] = bed_idx` on the entries of a `std::map`: the entry of
the key is overwritten, or a new entry is put at its place in key order. -/
def map_assign : List (Nat × Int) → Nat → Int → List (Nat × Int)
  | [], id, bed_idx => [(id, bed_idx)]
  | e :: rest, id, bed_idx =>
    if id < e.1 then (id, bed_idx) :: e :: rest
    else if id = e.1 then (id, bed_idx) :: rest
    else e :: map_assign rest id bed_idx

/-- Source: `void MultipleBeds::set_instance_bed(ObjectID id, int bed_idx)`; its
`assert(bed_idx < get_max_beds())` is the precondition of the call. -/
def set_instance_bed (s : MultipleBeds) (id : Nat) (bed_idx : Int) : MultipleBeds :=
  { s with m_inst_to_bed := map_assign s.m_inst_to_bed id bed_idx }

/-- Source: `void MultipleBeds::request_next_bed(bool show)` -/
def request_next_bed (max_beds : Int) (s : MultipleBeds) (show_next : Bool) : MultipleBeds :=
  { s with m_show_next_bed := if s.get_number_of_beds < max_beds then show_next else false }

/-- Source: `void MultipleBeds::inst_map_updated()` -/
def inst_map_updated (max_beds : Int) (s : MultipleBeds) : MultipleBeds :=
  let max_bed_idx := s.m_inst_to_bed.foldl (fun m e => max m e.2) 0
  let s1 :=
    if s.m_number_of_beds ≠ add32 max_bed_idx 1 then
      let s2 := { s with m_number_of_beds := add32 max_bed_idx 1 }
      let s3 := { s2 with m_active_bed := sub32 s2.m_number_of_beds 1 }
      request_next_bed max_beds s3 false
    else s
  if s1.m_active_bed ≥ s1.m_number_of_beds then
    { s1 with m_active_bed := sub32 s1.m_number_of_beds 1 }
  else s1

end MultipleBeds

/-! ## `struct GLCanvas3DManager::GLVersion` of `GLCanvas3DManager.cpp` -/

namespace GUI

namespace GLCanvas3DManager

/-- Modelled from the spec: the struct `GLVersion` is declared in
`GLCanvas3DManager.hpp`, which is not among the sources. It holds the two version
numbers `vn_major` and `vn_minor`, of the type `unsigned int` of the parameters
they are compared with: natural numbers below `2 ^ 32`. -/
structure GLVersion where
  vn_major : Nat
  vn_minor : Nat
deriving DecidableEq

namespace GLVersion

/-- Source: `GLCanvas3DManager::GLVersion::GLVersion() : vn_major(0), vn_minor(0)` -/
def GLVersion : GLVersion := ⟨0, 0⟩

/-- Source: `bool GLVersion::is_greater_or_equal_to(unsigned int major, unsigned int minor) const` -/
def is_greater_or_equal_to (v : GLCanvas3DManager.GLVersion) (major minor : Nat) : Bool :=
  if v.vn_major < major then false
  else if v.vn_major > major then true
  else decide (v.vn_minor ≥ minor)

end GLVersion

end GLCanvas3DManager

end GUI

/-! ## Facts about the binary32 model -/

namespace F32

/-- Magnitudes below `2 ^ (k + 23)` aside, every magnitude is a multiple of `2 ^ k`:
binary32 values of binade `k - 126` and above sit on the grid of step `2 ^ (k - 149)`. -/
theorem mag_grid (a : F32) (k : Nat) :
    a.mag < 2 ^ (k + 23) ∨ ∃ j : Nat, a.mag = j * 2 ^ k := by
  unfold mag
  split
  · left
    calc a.frac.val < 8388608 := a.frac.isLt
      _ = 2 ^ 23 := by norm_num
      _ ≤ 2 ^ (k + 23) := Nat.pow_le_pow_right (by norm_num) (by omega)
  · rename_i h0
    by_cases hk : k ≤ a.expo.val - 1
    · right
      refine ⟨(8388608 + a.frac.val) * 2 ^ (a.expo.val - 1 - k), ?_⟩
      rw [Nat.mul_assoc, ← Nat.pow_add]
      congr 2
      omega
    · left
      have h1 : a.expo.val - 1 + 1 ≤ k := by omega
      have h2 : (2 : Nat) ^ (a.expo.val - 1 + 1) ≤ 2 ^ k :=
        Nat.pow_le_pow_right (by norm_num) h1
      have h3 : 8388608 + a.frac.val < 2 * 8388608 := by
        have := a.frac.isLt
        omega
      have h4 : 0 < 2 ^ (a.expo.val - 1) := Nat.two_pow_pos _
      calc (8388608 + a.frac.val) * 2 ^ (a.expo.val - 1)
          < (2 * 8388608) * 2 ^ (a.expo.val - 1) := Nat.mul_lt_mul_of_pos_right h3 h4
        _ = 2 ^ (a.expo.val - 1 + 1) * 2 ^ 23 := by rw [Nat.pow_succ]; ring
        _ ≤ 2 ^ k * 2 ^ 23 := Nat.mul_le_mul_right _ h2
        _ = 2 ^ (k + 23) := by rw [Nat.pow_add]

theorem scaled_le_mag (a : F32) : a.scaled ≤ (a.mag : Int) := by
  unfold scaled
  split <;> omega

theorem scaled_eq_mag_of_pos (a : F32) (h : 0 < a.scaled) : a.scaled = (a.mag : Int) := by
  unfold scaled at *
  split at h <;> simp_all
  omega

theorem toRat_lt_iff (a : F32) (n d : Int) (hd : 0 < d) :
    a.toRat < (n : ℚ) / (d : ℚ) ↔ a.scaled * d < n * 2 ^ 149 := by
  unfold toRat
  have hd' : (0 : ℚ) < (d : ℚ) := by exact_mod_cast hd
  rw [div_lt_div_iff₀ (by positivity) hd']
  exact_mod_cast Iff.rfl

theorem lt_toRat_iff (a : F32) (n d : Int) (hd : 0 < d) :
    (n : ℚ) / (d : ℚ) < a.toRat ↔ n * 2 ^ 149 < a.scaled * d := by
  unfold toRat
  have hd' : (0 : ℚ) < (d : ℚ) := by exact_mod_cast hd
  rw [div_lt_div_iff₀ hd' (by positivity)]
  exact_mod_cast Iff.rfl

theorem lit_0_9999_mag : lit_0_9999.mag = 16775538 * 2 ^ 125 := by
  decide

/-- No binary32 magnitude lies in the gap between `0.9999f` and 9999/10000. -/
theorem mag_gt_lit_0_9999_iff (a : F32) :
    16775538 * 2 ^ 125 < a.mag ↔ 9999 * 2 ^ 149 < a.mag * 10000 := by
  have h149 : (2 : Nat) ^ 149 = 16777216 * 2 ^ 125 := by
    rw [show 149 = 24 + 125 from rfl, Nat.pow_add]
  have h148 : (2 : Nat) ^ (125 + 23) = 2 ^ 125 * 8388608 := by
    rw [Nat.pow_add]
  have hgrid := mag_grid a 125
  rw [h148] at hgrid
  rw [h149]
  have hP : 0 < 2 ^ 125 := Nat.two_pow_pos 125
  generalize (2 : Nat) ^ 125 = P at hP hgrid ⊢
  constructor
  · intro h
    rcases hgrid with hlt | ⟨j, hj⟩
    · exfalso
      nlinarith
    · rw [hj] at h ⊢
      have hj' : 16775539 ≤ j := by
        have := Nat.lt_of_mul_lt_mul_right h
        omega
      nlinarith
  · intro h
    nlinarith

theorem lit_0_9999_scaled : lit_0_9999.scaled = ((16775538 * 2 ^ 125 : Nat) : Int) := by
  rw [← lit_0_9999_mag]
  rfl

/-- No binary32 value lies in the gap between `0.9999f` and 9999/10000. -/
theorem scaled_gt_lit_0_9999_iff (a : F32) :
    lit_0_9999.scaled < a.scaled ↔ (9999 : Int) * 2 ^ 149 < a.scaled * 10000 := by
  rw [lit_0_9999_scaled]
  have key := mag_gt_lit_0_9999_iff a
  unfold scaled
  split
  · constructor
    · intro h
      exfalso
      have h0 : (0 : Int) ≤ ((16775538 * 2 ^ 125 : Nat) : Int) := Int.natCast_nonneg _
      omega
    · intro h
      exfalso
      have h0 : (0 : Int) < 9999 * 2 ^ 149 := by positivity
      omega
  · constructor
    · intro h
      have h1 : 16775538 * 2 ^ 125 < a.mag := by exact_mod_cast h
      have h2 := key.mp h1
      exact_mod_cast h2
    · intro h
      have h1 : 9999 * 2 ^ 149 < a.mag * 10000 := by exact_mod_cast h
      have h2 := key.mpr h1
      exact_mod_cast h2

/-- The operator `>` against the literal `0.9999f` decides `> 9999/10000` exactly. -/
theorem gt_lit_0_9999_iff (a : F32) :
    gt a lit_0_9999 = true ↔ (a.isNaN = false ∧ (9999 : ℚ) / 10000 < a.toRat) := by
  have hn : lit_0_9999.isNaN = false := by decide
  have hq := lt_toRat_iff a 9999 10000 (by norm_num)
  have hs := scaled_gt_lit_0_9999_iff a
  simp only [Int.cast_ofNat] at hq
  rw [hq, ← hs]
  unfold gt
  rw [hn]
  simp only [Bool.not_false, Bool.and_true, Bool.and_eq_true, Bool.not_eq_true',
    decide_eq_true_eq]

/-- The constant used for `0.9999f` is the binary32 nearest to 9999/10000: it is
less than half a unit in the last place (`2 ^ (-25)`) away from it. -/
theorem lit_0_9999_nearest :
    lit_0_9999.toRat = 16775538 / 2 ^ 24 ∧ |lit_0_9999.toRat - 9999 / 10000| < 1 / 2 ^ 25 := by
  have h : lit_0_9999.toRat = 16775538 / 2 ^ 24 := by
    unfold toRat
    rw [lit_0_9999_scaled]
    push_cast
    rw [show (149 : Nat) = 125 + 24 from rfl, pow_add]
    field_simp
    norm_num
  refine ⟨h, ?_⟩
  rw [h, abs_lt]
  constructor <;> norm_num

theorem lit_0_05_mag : lit_0_05.mag = 13421773 * 2 ^ 121 := by
  decide

theorem lit_0_05_scaled : lit_0_05.scaled = ((13421773 * 2 ^ 121 : Nat) : Int) := by
  rw [← lit_0_05_mag]
  rfl

/-- No binary32 magnitude lies in the gap between 1/20 and `0.05f`. -/
theorem mag_lt_lit_0_05_iff (a : F32) :
    a.mag < 13421773 * 2 ^ 121 ↔ a.mag * 20 < 2 ^ 149 := by
  have h149 : (2 : Nat) ^ 149 = 268435456 * 2 ^ 121 := by
    rw [show 149 = 28 + 121 from rfl, Nat.pow_add]
  have h144 : (2 : Nat) ^ (121 + 23) = 2 ^ 121 * 8388608 := by
    rw [Nat.pow_add]
  have hgrid := mag_grid a 121
  rw [h144] at hgrid
  rw [h149]
  have hP : 0 < 2 ^ 121 := Nat.two_pow_pos 121
  generalize (2 : Nat) ^ 121 = P at hP hgrid ⊢
  constructor
  · intro h
    rcases hgrid with hlt | ⟨j, hj⟩
    · nlinarith
    · rw [hj] at h ⊢
      have hj' : j ≤ 13421772 := by
        have := Nat.lt_of_mul_lt_mul_right h
        omega
      nlinarith
  · intro h
    nlinarith

/-- No binary32 value lies in the gap between 1/20 and `0.05f`. -/
theorem scaled_lt_lit_0_05_iff (a : F32) :
    a.scaled < lit_0_05.scaled ↔ a.scaled * 20 < (1 : Int) * 2 ^ 149 := by
  rw [lit_0_05_scaled]
  have key := mag_lt_lit_0_05_iff a
  have hpos : (0 : Int) < ((13421773 * 2 ^ 121 : Nat) : Int) := by
    have : 0 < 13421773 * 2 ^ 121 := Nat.mul_pos (by norm_num) (Nat.two_pow_pos 121)
    exact_mod_cast this
  have hpos' : (0 : Int) < 1 * 2 ^ 149 := by positivity
  unfold scaled
  split
  · constructor
    · intro _
      omega
    · intro _
      omega
  · constructor
    · intro h
      have h1 : a.mag < 13421773 * 2 ^ 121 := by exact_mod_cast h
      have h2 := key.mp h1
      rw [one_mul]
      exact_mod_cast h2
    · intro h
      rw [one_mul] at h
      have h1 : a.mag * 20 < 2 ^ 149 := by exact_mod_cast h
      have h2 := key.mpr h1
      exact_mod_cast h2

/-- The operator `<` against the literal `0.05f` decides `< 1/20` exactly. -/
theorem lt_lit_0_05_iff (a : F32) :
    lt a lit_0_05 = true ↔ (a.isNaN = false ∧ a.toRat < (5 : ℚ) / 100) := by
  have hn : lit_0_05.isNaN = false := by decide
  have hq := toRat_lt_iff a 1 20 (by norm_num)
  have hs := scaled_lt_lit_0_05_iff a
  simp only [Int.cast_ofNat, Int.cast_one] at hq
  rw [show (5 : ℚ) / 100 = 1 / 20 by norm_num, hq, ← hs]
  unfold lt
  rw [hn]
  simp only [Bool.not_false, Bool.and_true, Bool.and_eq_true, Bool.not_eq_true',
    decide_eq_true_eq]

/-- The constant used for `0.05f` is the binary32 nearest to 1/20: it is less than
half a unit in the last place (`2 ^ (-29)`) away from it. -/
theorem lit_0_05_nearest :
    lit_0_05.toRat = 13421773 / 2 ^ 28 ∧ |lit_0_05.toRat - 5 / 100| < 1 / 2 ^ 29 := by
  have h : lit_0_05.toRat = 13421773 / 2 ^ 28 := by
    unfold toRat
    rw [lit_0_05_scaled]
    push_cast
    rw [show (149 : Nat) = 121 + 28 from rfl, pow_add]
    field_simp
    norm_num
  refine ⟨h, ?_⟩
  rw [h, abs_lt]
  constructor <;> norm_num

/-- The value of a datum with clear sign bit, from its magnitude. -/
theorem toRat_of_mag (a : F32) (m : Nat) (q : ℚ) (hs : a.sign = false) (hm : a.mag = m)
    (hq : (m : ℚ) = q * 2 ^ 149) : a.toRat = q := by
  unfold toRat scaled
  rw [hs, hm]
  simp only [Bool.false_eq_true, if_false, Int.cast_natCast]
  rw [hq]
  field_simp

theorem lit_0_99995_nearest :
    lit_0_99995.toRat = 16776377 / 2 ^ 24 ∧
    |lit_0_99995.toRat - 99995 / 100000| < 1 / 2 ^ 25 := by
  have h : lit_0_99995.toRat = 16776377 / 2 ^ 24 :=
    toRat_of_mag lit_0_99995 (16776377 * 2 ^ 125) _ rfl (by decide) (by norm_num)
  refine ⟨h, ?_⟩
  rw [h, abs_lt]
  constructor <;> norm_num

theorem lit_0_02_nearest :
    lit_0_02.toRat = 10737418 / 2 ^ 29 ∧ |lit_0_02.toRat - 2 / 100| < 1 / 2 ^ 30 := by
  have h : lit_0_02.toRat = 10737418 / 2 ^ 29 :=
    toRat_of_mag lit_0_02 (10737418 * 2 ^ 120) _ rfl (by decide) (by norm_num)
  refine ⟨h, ?_⟩
  rw [h, abs_lt]
  constructor <;> norm_num

theorem lit_1000_toRat : lit_1000.toRat = 1000 :=
  toRat_of_mag lit_1000 (16384000 * 2 ^ 135) _ rfl (by decide) (by norm_num)

theorem zero_toRat : zero.toRat = 0 :=
  toRat_of_mag zero 0 _ rfl (by decide) (by norm_num)

/-- The constant used for `FLT_MAX` is `(2 ^ 24 - 1) * 2 ^ 104`, and it is the largest
magnitude of a datum that is neither an infinity nor a NaN. -/
theorem FLT_MAX_largest :
    FLT_MAX.toRat = (2 ^ 24 - 1) * 2 ^ 104 ∧
    ∀ a : F32, a.expo.val ≠ 255 → a.mag ≤ FLT_MAX.mag := by
  refine ⟨toRat_of_mag FLT_MAX ((2 ^ 24 - 1) * 2 ^ 253) _ rfl (by decide) (by norm_num), ?_⟩
  intro a ha
  have hm : FLT_MAX.mag = 16777215 * 2 ^ 253 := by decide
  rw [hm]
  unfold mag
  have hf := a.frac.isLt
  have he := a.expo.isLt
  split
  · calc a.frac.val ≤ 16777215 * 1 := by omega
      _ ≤ 16777215 * 2 ^ 253 := Nat.mul_le_mul_left _ (Nat.one_le_two_pow)
  · have h1 : 8388608 + a.frac.val ≤ 16777215 := by omega
    have h2 : (2 : Nat) ^ (a.expo.val - 1) ≤ 2 ^ 253 :=
      Nat.pow_le_pow_right (by norm_num) (by omega)
    exact Nat.mul_le_mul h1 h2

/-- The constant used for `float(M_PI/2.)` is the binary32 nearest to π/2: it is less
than half a unit in the last place (`2 ^ (-24)`) away from it. -/
theorem M_PI_2_nearest :
    M_PI_2.toRat = 13176795 / 2 ^ 23 ∧
    |((M_PI_2.toRat : ℚ) : ℝ) - Real.pi / 2| < 1 / 2 ^ 24 := by
  have h : M_PI_2.toRat = 13176795 / 2 ^ 23 :=
    toRat_of_mag M_PI_2 (13176795 * 2 ^ 126) _ rfl (by decide) (by norm_num)
  refine ⟨h, ?_⟩
  rw [h, abs_lt]
  have h1 := Real.pi_gt_d6
  have h2 := Real.pi_lt_d6
  have h3 := Real.pi_gt_d20
  have h4 := Real.pi_lt_d20
  push_cast
  constructor <;> norm_num at h3 h4 ⊢ <;> linarith

end F32

/-! ## Theorems on `FillParams` -/

/-- C1: `full_infill()` returns true exactly when the density is (not a NaN and)
greater than 9999/10000; it is false for the density `0.9999f` and true for `0.99995f`. -/
theorem full_infill_iff_density_gt :
    (∀ p : FillParams, p.full_infill = true ↔
      (p.density.isNaN = false ∧ (9999 : ℚ) / 10000 < p.density.toRat)) ∧
    ({ density := F32.lit_0_9999 } : FillParams).full_infill = false ∧
    ({ density := F32.lit_0_99995 } : FillParams).full_infill = true := by
  refine ⟨fun p => F32.gt_lit_0_9999_iff p.density, by decide, by decide⟩

/-- C2: `dont_connect()` returns true exactly when `anchor_length_max` is (not a NaN
and) less than 5/100; it is true for `anchor_length_max = 0.02f`. -/
theorem dont_connect_iff_anchor_lt :
    (∀ p : FillParams, p.dont_connect = true ↔
      (p.anchor_length_max.isNaN = false ∧ p.anchor_length_max.toRat < (5 : ℚ) / 100)) ∧
    ({ anchor_length_max := F32.lit_0_02 } : FillParams).dont_connect = true := by
  refine ⟨fun p => F32.lt_lit_0_05_iff p.anchor_length_max, by decide⟩

/-! ## Theorems on `class Fill` -/

theorem and_one_ne_zero_iff (idx : Nat) : idx &&& 1 ≠ 0 ↔ idx % 2 = 1 := by
  rw [Nat.and_one_is_mod]
  omega

theorem layer_angle_eq (idx : Nat) :
    Fill._layer_angle idx = if idx % 2 = 0 then F32.zero else F32.M_PI_2 := by
  unfold Fill._layer_angle
  by_cases h : idx % 2 = 0
  · have : ¬ (idx &&& 1 ≠ 0) := by rw [and_one_ne_zero_iff]; omega
    rw [if_neg this, if_pos h]
  · have : idx &&& 1 ≠ 0 := by rw [and_one_ne_zero_iff]; omega
    rw [if_pos this, if_neg h]

/-- C3: the default `_layer_angle(idx)` is `0` for an even layer index and
`float(M_PI/2.)` for an odd one, and takes no other value. -/
theorem layer_angle_parity (idx : Nat) :
    Fill._layer_angle idx = (if idx % 2 = 0 then F32.zero else F32.M_PI_2) ∧
    (Fill._layer_angle idx = F32.zero ∨ Fill._layer_angle idx = F32.M_PI_2) := by
  refine ⟨layer_angle_eq idx, ?_⟩
  rw [layer_angle_eq]
  split
  · exact Or.inl rfl
  · exact Or.inr rfl

/-- C6: a newly constructed `Fill` has `bounding_box.min = (0, 0)` and
`bounding_box.max = (-1, -1)`: the box is inverted on both axes. -/
theorem Fill_ctor_bounding_box :
    Fill.Fill.bounding_box.min = ⟨0, 0⟩ ∧ Fill.Fill.bounding_box.max = ⟨-1, -1⟩ ∧
    Fill.Fill.bounding_box.max.x < Fill.Fill.bounding_box.min.x ∧
    Fill.Fill.bounding_box.max.y < Fill.Fill.bounding_box.min.y := by
  decide

/-- C7: a newly constructed `Fill` has `angle = FLT_MAX`, `link_max_length = 0`,
`loop_clipping = 0`, `z = spacing = overlap = 0`, `layer_id = size_t(-1)` (all 64
bits set) and null octree / print_config / print_object_config pointers. -/
theorem Fill_ctor_fields :
    Fill.Fill.angle = F32.FLT_MAX ∧ Fill.Fill.link_max_length = 0 ∧
    Fill.Fill.loop_clipping = 0 ∧ Fill.Fill.z = F64.zero ∧ Fill.Fill.spacing = F64.zero ∧
    Fill.Fill.overlap = F64.zero ∧ Fill.Fill.layer_id = 2 ^ 64 - 1 ∧
    Fill.Fill.adapt_fill_octree = none ∧ Fill.Fill.print_config = none ∧
    Fill.Fill.print_object_config = none := by
  refine ⟨rfl, rfl, rfl, rfl, rfl, rfl, ?_, rfl, rfl, rfl⟩
  decide

theorem size_t_add_mod_two (a b : Nat) : size_t_add a b % 2 = (a + b) % 2 := by
  unfold size_t_add SIZE_BITS
  exact Nat.mod_mod_of_dvd _ (by norm_num)

theorem mod_two_pow_mod_two (n w : Nat) : n % 2 ^ (w + 1) % 2 = n % 2 :=
  Nat.mod_mod_of_dvd n (dvd_pow_self 2 (Nat.succ_ne_zero w))

/-- The two values of `_layer_angle` differ, as data and under the operator `!=`; the
angle of the next index is the other value, whatever even modulus the index wraps at. -/
theorem layer_angle_flip (idx next : Nat) (h : next % 2 = (idx + 1) % 2) :
    F32.ne (Fill._layer_angle next) (Fill._layer_angle idx) = true ∧
    Fill._layer_angle next ≠ Fill._layer_angle idx := by
  rw [layer_angle_eq next, layer_angle_eq idx]
  rcases Nat.mod_two_eq_zero_or_one idx with h0 | h0
  · rw [if_neg (by omega), if_pos h0]
    exact ⟨by decide, by decide⟩
  · rw [if_pos (by omega), if_neg (by omega)]
    exact ⟨by decide, by decide⟩

/-- C10: the default layer angle alternates on consecutive layer ids, `size_t`
wrap-around included: `_layer_angle(idx + 1) != _layer_angle(idx)` and
`_layer_angle(idx + 2) = _layer_angle(idx)` with `+` modulo `2 ^ 64`, and likewise
modulo `2 ^ w` for every width `w ≥ 1`; the initial `layer_id = size_t(-1)` gives
`float(M_PI/2.)` and its successor, `0`, gives `0`. -/
theorem layer_angle_alternates :
    (∀ idx : Nat,
      F32.ne (Fill._layer_angle (size_t_add idx 1)) (Fill._layer_angle idx) = true ∧
      Fill._layer_angle (size_t_add idx 1) ≠ Fill._layer_angle idx ∧
      Fill._layer_angle (size_t_add idx 2) = Fill._layer_angle idx) ∧
    (∀ w idx : Nat,
      F32.ne (Fill._layer_angle ((idx + 1) % 2 ^ (w + 1))) (Fill._layer_angle idx) = true ∧
      Fill._layer_angle ((idx + 1) % 2 ^ (w + 1)) ≠ Fill._layer_angle idx ∧
      Fill._layer_angle ((idx + 2) % 2 ^ (w + 1)) = Fill._layer_angle idx) ∧
    Fill._layer_angle Fill.Fill.layer_id = F32.M_PI_2 ∧
    size_t_add Fill.Fill.layer_id 1 = 0 ∧
    Fill._layer_angle (size_t_add Fill.Fill.layer_id 1) = F32.zero := by
  refine ⟨fun idx => ?_, fun w idx => ?_, by decide, by decide, by decide⟩
  · have h1 := size_t_add_mod_two idx 1
    have h2 := size_t_add_mod_two idx 2
    obtain ⟨a, b⟩ := layer_angle_flip idx (size_t_add idx 1) h1
    refine ⟨a, b, ?_⟩
    rw [layer_angle_eq (size_t_add idx 2), layer_angle_eq idx]
    have e : size_t_add idx 2 % 2 = idx % 2 := by omega
    rw [e]
  · have h1 := mod_two_pow_mod_two (idx + 1) w
    have h2 := mod_two_pow_mod_two (idx + 2) w
    obtain ⟨a, b⟩ := layer_angle_flip idx ((idx + 1) % 2 ^ (w + 1)) h1
    refine ⟨a, b, ?_⟩
    rw [layer_angle_eq ((idx + 2) % 2 ^ (w + 1)), layer_angle_eq idx]
    have e : (idx + 2) % 2 ^ (w + 1) % 2 = idx % 2 := by omega
    rw [e]

/-! ## Theorems on the connector -/

/-- In "don't connect" mode the pass over the lines emits every line as it is. -/
theorem connect_lines_dont_connect {Boundary : Type} (g : ConnectorGeometry Boundary)
    (params : FillParams) (boundary : Boundary) (h : params.dont_connect = true)
    (rest : List Polyline) :
    ∀ current : Polyline,
      Fill.connect_lines g params boundary current rest = current :: rest := by
  induction rest with
  | nil =>
    intro current
    rfl
  | cons next rest ih =>
    intro current
    unfold Fill.connect_lines
    have hr : ∀ arc, Fill.connection_rejected g params boundary arc = true := by
      intro arc
      unfold Fill.connection_rejected
      rw [h]
      rfl
    simp only [hr, if_true]
    rw [ih next]

/-- C9: when `params.dont_connect()` is true, `connect_infill` produces as many
polylines as there are raw input lines, for every geometry, list of raw lines,
boundary and spacing: the output is the list of raw lines, none merged. -/
theorem connect_infill_dont_connect {Boundary : Type} (g : ConnectorGeometry Boundary)
    (infill_ordered : List Polyline) (boundary : Boundary) (spacing : F64)
    (params : FillParams) (h : params.dont_connect = true) :
    (Fill.connect_infill g infill_ordered boundary spacing params).length
      = infill_ordered.length ∧
    Fill.connect_infill g infill_ordered boundary spacing params = infill_ordered := by
  have e : Fill.connect_infill g infill_ordered boundary spacing params = infill_ordered := by
    unfold Fill.connect_infill
    cases infill_ordered with
    | nil => rfl
    | cons first rest => exact connect_lines_dont_connect g params boundary h rest first
  exact ⟨by rw [e], e⟩

/-- C9 (witness): with `anchor_length_max = 0.02f` three raw lines give three polylines. -/
theorem connect_infill_dont_connect_witness :
    ({ anchor_length_max := F32.lit_0_02 } : FillParams).dont_connect = true ∧
    (Fill.connect_infill Fill.sample_geometry
      [[⟨0, 0⟩, ⟨0, 10⟩], [⟨5, 10⟩, ⟨5, 0⟩], [⟨10, 0⟩, ⟨10, 10⟩]] () F64.zero
      { anchor_length_max := F32.lit_0_02 }).length = 3 :=
  ⟨by decide,
   (connect_infill_dont_connect Fill.sample_geometry
      [[⟨0, 0⟩, ⟨0, 10⟩], [⟨5, 10⟩, ⟨5, 0⟩], [⟨10, 0⟩, ⟨10, 10⟩]] () F64.zero
      { anchor_length_max := F32.lit_0_02 } (by decide)).1⟩

/-- With the default anchor length (1000) the same lines are merged into one polyline. -/
theorem connect_infill_merges_sample :
    ({} : FillParams).dont_connect = false ∧
    Fill.connect_infill Fill.sample_geometry
      [[⟨0, 0⟩, ⟨0, 10⟩], [⟨5, 10⟩, ⟨5, 0⟩], [⟨10, 0⟩, ⟨10, 10⟩]] () F64.zero {} =
      [[⟨0, 0⟩, ⟨0, 10⟩, ⟨5, 10⟩, ⟨5, 0⟩, ⟨10, 0⟩, ⟨10, 10⟩]] := by
  decide

/-! ## Theorems on the bed grid -/

namespace BedsGrid

theorem wrap32_eq_self (z : Int) (h : IsInt32 z) : wrap32 z = z := by
  unfold IsInt32 at h
  unfold wrap32
  omega

theorem quadrant_offset_eq : quadrant_offset = 536870911 := by decide

/-- Squares of integers in `[0, 46340]` fit in an `int`. -/
theorem sq_le_of_le (a : Int) (h0 : 0 ≤ a) (h1 : a ≤ 46340) : a * a ≤ 2147395600 := by
  nlinarith

/-- The explicit value of `grid_coords_abs2index` on non-negative coordinates up to
46339, where no `int` operation overflows: shell `n = max u v` holds the indices
`n², …, n² + 2n`. -/
theorem abs2index_nonneg (u v : Int) (hu : 0 ≤ u) (hv : 0 ≤ v) (hu' : u ≤ 46339)
    (hv' : v ≤ 46339) :
    grid_coords_abs2index ⟨u, v⟩ =
      if u = v then u * u + 2 * u else if v < u then u * u + v else v * v + v + u := by
  have hsu := sq_le_of_le (u + 1) (by omega) (by omega)
  have hsv := sq_le_of_le (v + 1) (by omega) (by omega)
  have eu : (u + 1) * (u + 1) = u * u + 2 * u + 1 := by ring
  have ev : (v + 1) * (v + 1) = v * v + 2 * v + 1 := by ring
  have hu0 : 0 ≤ u * u := mul_nonneg hu hu
  have hv0 : 0 ≤ v * v := mul_nonneg hv hv
  unfold grid_coords_abs2index
  simp only [abs32, abs_of_nonneg hu, abs_of_nonneg hv]
  have hx : add32 (wrap32 u) 1 = u + 1 := by
    unfold add32 wrap32
    omega
  have hy : add32 (wrap32 v) 1 = v + 1 := by
    unfold add32 wrap32
    omega
  have hwu : wrap32 u = u := wrap32_eq_self u ⟨by omega, by omega⟩
  have hwv : wrap32 v = v := wrap32_eq_self v ⟨by omega, by omega⟩
  rw [hx, hy, hwu, hwv]
  rcases lt_trichotomy u v with h | h | h
  · have hm : max (u + 1) (v + 1) = v + 1 := max_eq_right (by omega)
    rw [hm, if_neg (by omega), if_neg (by omega), if_neg (by omega), if_neg (by omega)]
    unfold sub32 add32 mul32 wrap32
    rw [ev] at hsv ⊢
    omega
  · subst h
    rw [max_self, if_pos ⟨rfl, rfl⟩, if_pos rfl]
    unfold sub32 mul32 wrap32
    rw [eu] at hsu ⊢
    omega
  · have hm : max (u + 1) (v + 1) = u + 1 := max_eq_left (by omega)
    rw [hm, if_neg (by omega), if_pos rfl, if_neg (by omega), if_pos h]
    unfold sub32 add32 mul32 wrap32
    rw [eu] at hsu ⊢
    omega

/-- Signs do not matter to `grid_coords_abs2index`. -/
theorem abs2index_abs (x y : Int) :
    grid_coords_abs2index ⟨x, y⟩ = grid_coords_abs2index ⟨|x|, |y|⟩ := by
  unfold grid_coords_abs2index
  simp only [abs32, abs_abs]

/-- The loop of `index2grid_coords` leaves with the integer square root: started at
`a` with `a² < id`, and given fuel for the remaining steps, it stops at the `n`
with `n² < id ≤ (n + 1)²`. -/
theorem index2grid_while_spec (fuel : Nat) :
    ∀ a id : Int, 1 ≤ a → a * a < id → id ≤ 536870911 →
      id ≤ (a + fuel) * (a + fuel) →
      ∃ n, index2grid_while fuel a id = some n ∧ a ≤ n ∧ n * n < id ∧
        id ≤ (n + 1) * (n + 1) := by
  induction fuel with
  | zero =>
    intro a id _ hlo _ hf
    simp only [Nat.cast_zero, add_zero] at hf
    omega
  | succ k ih =>
    intro a id ha hlo hid hf
    have ha' : a ≤ 23170 := by
      by_contra hcon
      have : 23171 ≤ a := by omega
      nlinarith
    have hsq : (a + 1) * (a + 1) ≤ 2147395600 := sq_le_of_le (a + 1) (by omega) (by omega)
    have hsq0 : 0 ≤ (a + 1) * (a + 1) := mul_nonneg (by omega) (by omega)
    have h1 : add32 a 1 = a + 1 := wrap32_eq_self _ ⟨by omega, by omega⟩
    have h2 : mul32 (a + 1) (a + 1) = (a + 1) * (a + 1) :=
      wrap32_eq_self _ ⟨by omega, by omega⟩
    unfold index2grid_while
    rw [h1, h2]
    by_cases hc : (a + 1) * (a + 1) < id
    · rw [if_pos hc]
      have hf' : id ≤ (a + 1 + (k : Int)) * (a + 1 + (k : Int)) := by
        have e : a + ((k + 1 : Nat) : Int) = a + 1 + (k : Int) := by push_cast; ring
        rw [e] at hf
        exact hf
      obtain ⟨n, hn, hle, hlt, hup⟩ := ih (a + 1) id (by omega) hc hid hf'
      exact ⟨n, hn, by omega, hlt, hup⟩
    · rw [if_neg hc]
      exact ⟨a, rfl, le_refl a, hlo, by omega⟩

/-- What `index2grid_coords` does on an index `i ≥ 0` whose remainder modulo
`quadrant_offset` is not zero, given fuel for 23170 loop tests: the loop ends and
yields a cell `(u, v) ≠ (0, 0)` of the first quadrant whose
`grid_coords_abs2index` is the remainder; the quadrant `i / quadrant_offset` then
selects the signs, or the throw. -/
theorem index2grid_coords_of (fuel : Nat) (i : Int) (hi0 : 0 ≤ i) (hf : 23170 ≤ fuel)
    (hr : Int.tmod i quadrant_offset ≠ 0) :
    ∃ u v : Int, 0 ≤ u ∧ 0 ≤ v ∧ u ≤ 23170 ∧ v ≤ 23170 ∧ (0 < u ∨ 0 < v) ∧
      grid_coords_abs2index ⟨u, v⟩ = Int.tmod i quadrant_offset ∧
      index2grid_coords fuel i =
        if Int.tdiv i quadrant_offset = 1 then some (Except.ok ⟨u, -v⟩)
        else if Int.tdiv i quadrant_offset = 2 then some (Except.ok ⟨-u, v⟩)
        else if Int.tdiv i quadrant_offset = 3 then some (Except.ok ⟨-u, -v⟩)
        else if Int.tdiv i quadrant_offset ≠ 0 then
          some (Except.error "Impossible bed index > max int!")
        else some (Except.ok ⟨u, v⟩) := by
  unfold index2grid_coords
  rw [quadrant_offset_eq] at hr ⊢
  have hr1 : 1 ≤ Int.tmod i 536870911 := by
    have := Int.tmod_nonneg 536870911 hi0
    omega
  have hr2 : Int.tmod i 536870911 < 536870911 := Int.tmod_lt_of_pos i (by norm_num)
  rw [if_neg (by omega)]
  simp only []
  generalize Int.tmod i 536870911 = r at hr hr1 hr2 ⊢
  generalize Int.tdiv i 536870911 = k
  rw [if_neg hr]
  have hid : add32 r 1 = r + 1 := wrap32_eq_self _ ⟨by omega, by omega⟩
  rw [hid]
  have hfuel : r + 1 ≤ (1 + (fuel : Int)) * (1 + (fuel : Int)) := by
    have : (23170 : Int) ≤ (fuel : Int) := by exact_mod_cast hf
    nlinarith
  obtain ⟨n, hn, hn1, hlo, hup⟩ :=
    index2grid_while_spec fuel 1 (r + 1) (le_refl 1) (by omega) (by omega) hfuel
  rw [hn]
  simp only []
  have hn' : n ≤ 23170 := by
    by_contra hcon
    have : 23171 ≤ n := by omega
    nlinarith
  have hsq : n * n ≤ 2147395600 := sq_le_of_le n (by omega) (by omega)
  have hsq0 : 0 ≤ n * n := mul_nonneg (by omega) (by omega)
  have en : (n + 1) * (n + 1) = n * n + 2 * n + 1 := by ring
  rw [en] at hup
  have hmul : mul32 n n = n * n := wrap32_eq_self _ ⟨by omega, by omega⟩
  have hsub : sub32 (r + 1) (n * n) = r + 1 - n * n := wrap32_eq_self _ ⟨by omega, by omega⟩
  rw [hmul, hsub]
  by_cases hc : r + 1 - n * n ≤ n
  · rw [if_pos hc]
    have hv : sub32 (r + 1 - n * n) 1 = r - n * n := by
      unfold sub32 wrap32
      omega
    refine ⟨n, r - n * n, by omega, by omega, hn', by omega, Or.inl (by omega), ?_, ?_⟩
    · rw [abs2index_nonneg n (r - n * n) (by omega) (by omega) (by omega) (by omega)]
      rw [if_neg (by omega), if_pos (by omega)]
      omega
    · simp only [hv]
      have e1 : neg32 (r - n * n) = -(r - n * n) := wrap32_eq_self _ ⟨by omega, by omega⟩
      have e2 : neg32 n = -n := wrap32_eq_self _ ⟨by omega, by omega⟩
      rw [e1, e2]
  · rw [if_neg hc]
    have hu : sub32 (sub32 (r + 1 - n * n) n) 1 = r - n * n - n := by
      unfold sub32 wrap32
      omega
    refine ⟨r - n * n - n, n, by omega, by omega, by omega, hn', Or.inr (by omega), ?_, ?_⟩
    · rw [abs2index_nonneg (r - n * n - n) n (by omega) (by omega) (by omega) (by omega)]
      by_cases hcorner : r - n * n - n = n
      · rw [if_pos hcorner, hcorner]
        omega
      · rw [if_neg hcorner, if_neg (by omega)]
        omega
    · simp only [hu]
      have e1 : neg32 (r - n * n - n) = -(r - n * n - n) :=
        wrap32_eq_self _ ⟨by omega, by omega⟩
      have e2 : neg32 n = -n := wrap32_eq_self _ ⟨by omega, by omega⟩
      rw [e1, e2]

/-- Shell bounds: on non-negative coordinates up to 46339 the index of a cell of
Chebyshev norm `n` lies in `n², …, n² + 2n`. -/
theorem abs2index_bounds (u v : Int) (hu : 0 ≤ u) (hv : 0 ≤ v) (hu' : u ≤ 46339)
    (hv' : v ≤ 46339) :
    max u v * max u v ≤ grid_coords_abs2index ⟨u, v⟩ ∧
    grid_coords_abs2index ⟨u, v⟩ ≤ max u v * max u v + 2 * max u v := by
  rw [abs2index_nonneg u v hu hv hu' hv']
  rcases lt_trichotomy u v with h | h | h
  · rw [if_neg (by omega), if_neg (by omega), max_eq_right (by omega)]
    omega
  · subst h
    rw [if_pos rfl, max_self]
    omega
  · rw [if_neg (by omega), if_pos h, max_eq_left (by omega)]
    omega

/-- A number lies in the index range of one shell only. -/
theorem shell_unique (n m r : Int) (hn : 0 ≤ n) (hm : 0 ≤ m) (h1 : n * n ≤ r)
    (h2 : r ≤ n * n + 2 * n) (h3 : m * m ≤ r) (h4 : r ≤ m * m + 2 * m) : n = m := by
  rcases lt_trichotomy n m with h | h | h
  · exfalso
    have : n + 1 ≤ m := by omega
    nlinarith
  · exact h
  · exfalso
    have : m + 1 ≤ n := by omega
    nlinarith

/-- On non-negative coordinates up to 46339, `grid_coords_abs2index` is injective. -/
theorem abs2index_inj (u v u' v' : Int) (hu : 0 ≤ u) (hv : 0 ≤ v) (hu1 : u ≤ 46339)
    (hv1 : v ≤ 46339) (hu' : 0 ≤ u') (hv' : 0 ≤ v') (hu1' : u' ≤ 46339) (hv1' : v' ≤ 46339)
    (h : grid_coords_abs2index ⟨u, v⟩ = grid_coords_abs2index ⟨u', v'⟩) :
    u = u' ∧ v = v' := by
  obtain ⟨b1, b2⟩ := abs2index_bounds u v hu hv hu1 hv1
  obtain ⟨b3, b4⟩ := abs2index_bounds u' v' hu' hv' hu1' hv1'
  rw [h] at b1 b2
  have hmax : max u v = max u' v' :=
    shell_unique _ _ _ (le_max_of_le_left hu) (le_max_of_le_left hu') b1 b2 b3 b4
  rw [abs2index_nonneg u v hu hv hu1 hv1, abs2index_nonneg u' v' hu' hv' hu1' hv1'] at h
  rcases lt_trichotomy u v with c | c | c <;> rcases lt_trichotomy u' v' with c' | c' | c'
  · rw [max_eq_right (by omega), max_eq_right (by omega)] at hmax
    rw [if_neg (by omega), if_neg (by omega), if_neg (by omega), if_neg (by omega), hmax] at h
    omega
  · rw [max_eq_right (by omega), max_eq_right (by omega)] at hmax
    rw [if_neg (by omega), if_neg (by omega), if_pos c', hmax, c'] at h
    omega
  · rw [max_eq_right (by omega), max_eq_left (by omega)] at hmax
    rw [if_neg (by omega), if_neg (by omega), if_neg (by omega), if_pos c', hmax] at h
    omega
  · rw [max_eq_right (by omega), max_eq_right (by omega)] at hmax
    rw [if_pos c, if_neg (by omega), if_neg (by omega), c, hmax] at h
    omega
  · rw [max_eq_right (by omega), max_eq_right (by omega)] at hmax
    omega
  · rw [max_eq_right (by omega), max_eq_left (by omega)] at hmax
    rw [if_pos c, if_neg (by omega), if_pos c', c, hmax] at h
    omega
  · rw [max_eq_left (by omega), max_eq_right (by omega)] at hmax
    rw [if_neg (by omega), if_pos c, if_neg (by omega), if_neg (by omega), hmax] at h
    omega
  · rw [max_eq_left (by omega), max_eq_right (by omega)] at hmax
    rw [if_neg (by omega), if_pos c, if_pos c', hmax, c'] at h
    omega
  · rw [max_eq_left (by omega), max_eq_left (by omega)] at hmax
    rw [if_neg (by omega), if_pos c, if_neg (by omega), if_pos c', hmax] at h
    omega

/-- The value of `grid_coords2index` where it does not throw: the quadrant number of
the signs times `quadrant_offset`, plus the index of the absolute coordinates. -/
theorem grid_coords2index_of (x y : Int) (hx : |x| ≤ 46339) (hy : |y| ≤ 46339)
    (hlt : grid_coords_abs2index ⟨|x|, |y|⟩ < 536870911) :
    grid_coords2index ⟨x, y⟩ =
      Except.ok ((if 0 ≤ x then (if 0 ≤ y then 0 else 1) else (if 0 ≤ y then 2 else 3))
        * 536870911 + grid_coords_abs2index ⟨|x|, |y|⟩) := by
  obtain ⟨b1, _⟩ := abs2index_bounds |x| |y| (abs_nonneg x) (abs_nonneg y) hx hy
  have b0 : 0 ≤ grid_coords_abs2index ⟨|x|, |y|⟩ :=
    le_trans (mul_self_nonneg _) b1
  unfold grid_coords2index
  simp only [quadrant_offset_eq]
  rw [abs2index_abs x y]
  generalize grid_coords_abs2index ⟨|x|, |y|⟩ = r at hlt b0 ⊢
  rw [if_neg (by omega)]
  by_cases h0x : 0 ≤ x <;> by_cases h0y : 0 ≤ y
  · rw [if_pos ⟨h0x, h0y⟩, if_pos h0x, if_pos h0y]
    simp
  · rw [if_neg (by omega), if_pos ⟨h0x, by omega⟩, if_pos h0x, if_neg h0y]
    unfold add32 wrap32
    congr 1
    omega
  · rw [if_neg (by omega), if_neg (by omega), if_pos ⟨by omega, h0y⟩, if_neg h0x, if_pos h0y]
    unfold add32 mul32 wrap32
    congr 1
    omega
  · rw [if_neg (by omega), if_neg (by omega), if_neg (by omega), if_neg h0x, if_neg h0y]
    unfold add32 mul32 wrap32
    congr 1
    omega


/-- The first-quadrant cell with index 0 is the origin. -/
theorem abs2index_eq_zero (u v : Int) (hu : 0 ≤ u) (hv : 0 ≤ v) (hu' : u ≤ 46339)
    (hv' : v ≤ 46339) (h : grid_coords_abs2index ⟨u, v⟩ = 0) : u = 0 ∧ v = 0 := by
  have h0 : grid_coords_abs2index ⟨0, 0⟩ = 0 := by decide
  exact abs2index_inj u v 0 0 hu hv hu' hv' (le_refl 0) (le_refl 0) (by norm_num)
    (by norm_num) (h.trans h0.symm)

theorem tdiv_tmod_quadrant (k r : Int) (hk : 0 ≤ k) (hr0 : 0 ≤ r) (hr : r < 536870911) :
    Int.tdiv (k * 536870911 + r) 536870911 = k ∧
    Int.tmod (k * 536870911 + r) 536870911 = r := by
  have hi : 0 ≤ k * 536870911 + r := by omega
  rw [Int.tdiv_eq_ediv hi (by norm_num), Int.tmod_eq_emod hi (by norm_num)]
  omega

/-- Coordinates to index and back, in the range where no `int` operation overflows. -/
theorem roundtrip_of_coords (c : GridCoords) (hx : |c.x| ≤ 46339) (hy : |c.y| ≤ 46339) :
    ((∃ i, grid_coords2index c = Except.ok i) ↔ grid_coords_abs2index c < quadrant_offset) ∧
    (max |c.x| |c.y| ≤ 23169 → grid_coords_abs2index c < quadrant_offset) ∧
    (grid_coords_abs2index c < quadrant_offset →
      ∃ i, grid_coords2index c = Except.ok i ∧
        ∀ fuel, 23170 ≤ fuel → index2grid_coords fuel i = some (Except.ok c)) := by
  obtain ⟨x, y⟩ := c
  simp only at hx hy ⊢
  have hux := abs_nonneg x
  have huy := abs_nonneg y
  obtain ⟨b1, b2⟩ := abs2index_bounds |x| |y| hux huy hx hy
  have hmax0 : 0 ≤ max |x| |y| := le_max_of_le_left hux
  rw [quadrant_offset_eq, abs2index_abs x y]
  refine ⟨?_, ?_, ?_⟩
  · constructor
    · rintro ⟨i, hi⟩
      by_contra hcon
      unfold grid_coords2index at hi
      simp only [quadrant_offset_eq] at hi
      rw [abs2index_abs x y, if_pos (by omega)] at hi
      cases hi
    · intro h
      exact ⟨_, grid_coords2index_of x y hx hy h⟩
  · intro h
    have : max |x| |y| * max |x| |y| ≤ 23169 * 23169 := by nlinarith
    omega
  · intro h
    refine ⟨_, grid_coords2index_of x y hx hy h, ?_⟩
    intro fuel hf
    have hk : (0 : Int) ≤ (if 0 ≤ x then (if 0 ≤ y then 0 else 1) else (if 0 ≤ y then 2 else 3)) := by
      split <;> split <;> norm_num
    have hr0 : 0 ≤ grid_coords_abs2index ⟨|x|, |y|⟩ := le_trans (mul_self_nonneg _) b1
    obtain ⟨hdiv, hmod⟩ := tdiv_tmod_quadrant _ _ hk hr0 h
    by_cases hz : grid_coords_abs2index ⟨|x|, |y|⟩ = 0
    · obtain ⟨ex, ey⟩ := abs2index_eq_zero |x| |y| hux huy hx hy hz
      have hx0 : x = 0 := abs_eq_zero.mp ex
      have hy0 : y = 0 := abs_eq_zero.mp ey
      rw [hz, hx0, hy0]
      have e0 : ((if (0 : Int) ≤ 0 then (if (0 : Int) ≤ 0 then 0 else 1)
          else (if (0 : Int) ≤ 0 then 2 else 3)) * 536870911 + 0 : Int) = 0 := by norm_num
      rw [e0]
      unfold index2grid_coords
      rw [if_neg (by norm_num)]
      simp
    · have hi0 : 0 ≤ (if 0 ≤ x then (if 0 ≤ y then 0 else 1) else (if 0 ≤ y then 2 else 3))
          * 536870911 + grid_coords_abs2index ⟨|x|, |y|⟩ := by
        have := mul_nonneg hk (show (0 : Int) ≤ 536870911 by norm_num)
        omega
      obtain ⟨u, v, hu, hv, hu', hv', _, habs, hres⟩ :=
        index2grid_coords_of fuel _ hi0 hf (by rw [quadrant_offset_eq, hmod]; exact hz)
      rw [quadrant_offset_eq] at habs hres
      rw [hmod] at habs
      obtain ⟨eu, ev⟩ := abs2index_inj u v |x| |y| hu hv (by omega) (by omega) hux huy hx hy habs
      rw [hres, hdiv, eu, ev]
      by_cases h0x : 0 ≤ x <;> by_cases h0y : 0 ≤ y
      · rw [if_pos h0x, if_pos h0y, abs_of_nonneg h0x, abs_of_nonneg h0y]
        simp
      · rw [if_pos h0x, if_neg h0y, abs_of_nonneg h0x, abs_of_neg (by omega)]
        simp
      · rw [if_neg h0x, if_pos h0y, abs_of_neg (by omega), abs_of_nonneg h0y]
        simp
      · rw [if_neg h0x, if_neg h0y, abs_of_neg (by omega), abs_of_neg (by omega)]
        simp


/-- C5 (amended): for every index `0 ≤ i < 4 * quadrant_offset`, `index2grid_coords(i)`
returns a cell `c` (its loop given fuel for 23170 tests) and `grid_coords2index(c)`
returns an index `j ≤ i` of the same cell; `j = i` holds exactly when no coordinate
that the quadrant of `i` negates is zero (quadrant 1: `y`, quadrant 2: `x`,
quadrant 3: both). -/
theorem index_roundtrip (i : Int) (h0 : 0 ≤ i) (h1 : i < 4 * quadrant_offset) (fuel : Nat)
    (hf : 23170 ≤ fuel) :
    ∃ c j, index2grid_coords fuel i = some (Except.ok c) ∧
      grid_coords2index c = Except.ok j ∧
      index2grid_coords fuel j = some (Except.ok c) ∧ j ≤ i ∧
      (j = i ↔ ((Int.tdiv i quadrant_offset = 1 → c.y ≠ 0) ∧
        (Int.tdiv i quadrant_offset = 2 → c.x ≠ 0) ∧
        (Int.tdiv i quadrant_offset = 3 → c.x ≠ 0 ∧ c.y ≠ 0))) := by
  rw [quadrant_offset_eq] at h1 ⊢
  have hdiv : Int.tdiv i 536870911 = i / 536870911 := Int.tdiv_eq_ediv h0 (by norm_num)
  have hmod : Int.tmod i 536870911 = i % 536870911 := Int.tmod_eq_emod h0 (by norm_num)
  have hk : i / 536870911 = 0 ∨ i / 536870911 = 1 ∨ i / 536870911 = 2 ∨ i / 536870911 = 3 := by
    omega
  by_cases hr : Int.tmod i 536870911 = 0
  · refine ⟨⟨0, 0⟩, 0, ?_, by decide, ?_, h0, ?_⟩
    · unfold index2grid_coords
      rw [if_neg (by omega)]
      simp only [quadrant_offset_eq]
      rw [if_pos hr]
    · unfold index2grid_coords
      simp
    · simp only [ne_eq, not_true_eq_false, imp_false, and_self]
      rw [hdiv]
      omega
  · obtain ⟨u, v, hu, hv, hu', hv', hpos, habs, hres⟩ :=
      index2grid_coords_of fuel i h0 hf (by rw [quadrant_offset_eq]; exact hr)
    rw [quadrant_offset_eq] at habs hres
    rw [hdiv] at hres ⊢
    rw [hmod] at habs hr
    have hrq : i % 536870911 < 536870911 := by omega
    have key : ∀ x y : Int, |x| = u → |y| = v →
        ∃ j, grid_coords2index ⟨x, y⟩ = Except.ok j ∧
          index2grid_coords fuel j = some (Except.ok ⟨x, y⟩) ∧
          j = (if 0 ≤ x then (if 0 ≤ y then 0 else 1) else (if 0 ≤ y then 2 else 3))
            * 536870911 + i % 536870911 := by
      intro x y ex ey
      have hx : |x| ≤ 46339 := by omega
      have hy : |y| ≤ 46339 := by omega
      have hlt : grid_coords_abs2index ⟨|x|, |y|⟩ < 536870911 := by
        rw [ex, ey, habs]
        exact hrq
      have hval := grid_coords2index_of x y hx hy hlt
      obtain ⟨_, _, h3⟩ := roundtrip_of_coords ⟨x, y⟩ hx hy
      rw [quadrant_offset_eq, abs2index_abs x y] at h3
      obtain ⟨j, hj, hj'⟩ := h3 hlt
      refine ⟨j, hj, hj' fuel hf, ?_⟩
      rw [hval] at hj
      rw [ex, ey, habs] at hj
      injection hj with hj
      exact hj.symm
    rcases hk with hk | hk | hk | hk
    · rw [hk] at hres
      simp only [show ¬ ((0 : Int) = 1) by norm_num, show ¬ ((0 : Int) = 2) by norm_num,
        show ¬ ((0 : Int) = 3) by norm_num, if_false, ne_eq, not_true_eq_false] at hres
      obtain ⟨j, hj1, hj2, hj3⟩ := key u v (abs_of_nonneg hu) (abs_of_nonneg hv)
      rw [if_pos hu, if_pos hv] at hj3
      refine ⟨⟨u, v⟩, j, hres, hj1, hj2, by omega, ?_⟩
      rw [hk]
      constructor
      · intro _
        refine ⟨by norm_num, by norm_num, by norm_num⟩
      · intro _
        omega
    · rw [hk] at hres
      simp only [if_true] at hres
      obtain ⟨j, hj1, hj2, hj3⟩ := key u (-v) (abs_of_nonneg hu) (by rw [abs_neg, abs_of_nonneg hv])
      rw [if_pos hu] at hj3
      refine ⟨⟨u, -v⟩, j, hres, hj1, hj2, ?_, ?_⟩
      · split at hj3 <;> omega
      · rw [hk]
        simp only [true_implies, show ¬ ((1 : Int) = 2) by norm_num,
          show ¬ ((1 : Int) = 3) by norm_num, false_implies, and_true]
        split at hj3 <;> constructor <;> intro h <;> omega
    · rw [hk] at hres
      simp only [show ¬ ((2 : Int) = 1) by norm_num, if_false, if_true] at hres
      obtain ⟨j, hj1, hj2, hj3⟩ := key (-u) v (by rw [abs_neg, abs_of_nonneg hu]) (abs_of_nonneg hv)
      rw [if_pos hv, if_pos hv] at hj3
      refine ⟨⟨-u, v⟩, j, hres, hj1, hj2, ?_, ?_⟩
      · split at hj3 <;> omega
      · rw [hk]
        simp only [true_implies, show ¬ ((2 : Int) = 1) by norm_num,
          show ¬ ((2 : Int) = 3) by norm_num, false_implies, and_true, true_and]
        split at hj3 <;> constructor <;> intro h <;> omega
    · rw [hk] at hres
      simp only [show ¬ ((3 : Int) = 1) by norm_num, show ¬ ((3 : Int) = 2) by norm_num,
        if_false, if_true] at hres
      obtain ⟨j, hj1, hj2, hj3⟩ := key (-u) (-v) (by rw [abs_neg, abs_of_nonneg hu])
        (by rw [abs_neg, abs_of_nonneg hv])
      refine ⟨⟨-u, -v⟩, j, hres, hj1, hj2, ?_, ?_⟩
      · split at hj3 <;> split at hj3 <;> omega
      · rw [hk]
        simp only [true_implies, show ¬ ((3 : Int) = 1) by norm_num,
          show ¬ ((3 : Int) = 2) by norm_num, false_implies, and_true, true_and]
        split at hj3 <;> split at hj3 <;> constructor <;> intro h <;> omega

/-- C4: the round trip `index2grid_coords(grid_coords2index(c)) = c` fails for cells
that pass the guard `index >= quadrant_offset` only because `a*a` overflows `int`.
The guard throws for the far cells `(30000, 30000)` and `(46339, 46339)`; from
`(46340, 46340)` on the product wraps: that cell returns the negative index
`-2147479016` and `(65535, 65535)` returns `-1`, indices which `index2grid_coords`
rejects, while `(65535, -65535)` returns `536870910`, the index of the cell
`(23170, 22010)`, and `(65536, 65536)` returns `131072`, the index of the cell
`(362, 28)`. -/
theorem grid_coords_roundtrip_overflow :
    GridCoords.IsInt32 ⟨65535, 65535⟩ ∧
    grid_coords_abs2index ⟨65535, 65535⟩ < quadrant_offset ∧
    grid_coords2index ⟨65535, 65535⟩ = Except.ok (-1) ∧
    (∀ fuel, index2grid_coords fuel (-1) =
      some (Except.error "Negative bed index cannot be translated to coords!")) ∧
    ¬ (grid_coords_abs2index ⟨65535, 65535⟩ < quadrant_offset →
        ∃ i, grid_coords2index ⟨65535, 65535⟩ = Except.ok i ∧
          ∀ fuel, 23170 ≤ fuel →
            index2grid_coords fuel i = some (Except.ok ⟨65535, 65535⟩)) ∧
    grid_coords2index ⟨30000, 30000⟩ = Except.error "Object is too far from center!" ∧
    grid_coords2index ⟨46339, 46339⟩ = Except.error "Object is too far from center!" ∧
    grid_coords2index ⟨46340, 46340⟩ = Except.ok (-2147479016) ∧
    (∀ fuel, index2grid_coords fuel (-2147479016) =
      some (Except.error "Negative bed index cannot be translated to coords!")) ∧
    grid_coords2index ⟨65535, -65535⟩ = Except.ok 536870910 ∧
    (∀ fuel, 23170 ≤ fuel →
      index2grid_coords fuel 536870910 = some (Except.ok ⟨23170, 22010⟩)) ∧
    grid_coords2index ⟨65536, 65536⟩ = Except.ok 131072 ∧
    (∀ fuel, 23170 ≤ fuel →
      index2grid_coords fuel 131072 = some (Except.ok ⟨362, 28⟩)) := by
  have hneg : ∀ (i : Int), i < 0 → ∀ fuel, index2grid_coords fuel i =
      some (Except.error "Negative bed index cannot be translated to coords!") := by
    intro i hi fuel
    unfold index2grid_coords
    rw [if_pos hi]
  have back : ∀ (c : GridCoords) (i : Int), |c.x| ≤ 46339 → |c.y| ≤ 46339 →
      grid_coords2index c = Except.ok i →
      ∀ fuel, 23170 ≤ fuel → index2grid_coords fuel i = some (Except.ok c) := by
    intro c i hx hy hi fuel hf
    obtain ⟨h1, _, h3⟩ := roundtrip_of_coords c hx hy
    obtain ⟨j, hj, hrt⟩ := h3 (h1.mp ⟨i, hi⟩)
    rw [hi] at hj
    injection hj with hj
    rw [hj]
    exact hrt fuel hf
  refine ⟨by decide, by decide, by decide, hneg _ (by norm_num), ?_, by decide, by decide,
    by decide, hneg _ (by norm_num), by decide,
    back ⟨23170, 22010⟩ _ (by decide) (by decide) (by decide), by decide,
    back ⟨362, 28⟩ _ (by decide) (by decide) (by decide)⟩
  intro h
  obtain ⟨i, hi, hrt⟩ := h (by decide)
  have hi' : grid_coords2index ⟨65535, 65535⟩ = Except.ok (-1) := by decide
  rw [hi'] at hi
  injection hi with hi
  have h1 := hrt 23170 (le_refl _)
  rw [← hi, hneg _ (by norm_num)] at h1
  cases h1

/-- C5 (counterexample): the index `quadrant_offset` is in range, `index2grid_coords`
maps it to the origin, and `grid_coords2index` maps the origin to `0`; likewise
`quadrant_offset + 1` goes to the cell `(1, 0)`, whose index is `1`. -/
theorem index_roundtrip_fails :
    0 ≤ quadrant_offset ∧ quadrant_offset < 4 * quadrant_offset ∧
    (∀ fuel, index2grid_coords fuel quadrant_offset = some (Except.ok ⟨0, 0⟩)) ∧
    grid_coords2index ⟨0, 0⟩ = Except.ok 0 ∧ (0 : Int) ≠ quadrant_offset ∧
    index2grid_coords 23170 (quadrant_offset + 1) = some (Except.ok ⟨1, 0⟩) ∧
    grid_coords2index ⟨1, 0⟩ = Except.ok 1 ∧ (1 : Int) ≠ quadrant_offset + 1 := by
  refine ⟨by decide, by decide, ?_, by decide, by decide, by decide, by decide, by decide⟩
  intro fuel
  unfold index2grid_coords
  simp [quadrant_offset_eq]

/-- C5 (witness): the index `3 * quadrant_offset + 11` is that of the cell `(-3, -2)`,
and the round trip returns it. -/
theorem index_roundtrip_witness :
    (∃ c j, index2grid_coords 23170 1610612744 = some (Except.ok c) ∧
      grid_coords2index c = Except.ok j ∧
      index2grid_coords 23170 j = some (Except.ok c) ∧ j ≤ 1610612744 ∧
      (j = 1610612744 ↔ ((Int.tdiv 1610612744 quadrant_offset = 1 → c.y ≠ 0) ∧
        (Int.tdiv 1610612744 quadrant_offset = 2 → c.x ≠ 0) ∧
        (Int.tdiv 1610612744 quadrant_offset = 3 → c.x ≠ 0 ∧ c.y ≠ 0)))) ∧
    index2grid_coords 23170 1610612744 = some (Except.ok ⟨-3, -2⟩) ∧
    grid_coords2index ⟨-3, -2⟩ = Except.ok 1610612744 :=
  ⟨index_roundtrip 1610612744 (by decide) (by decide) 23170 (le_refl _), by decide, by decide⟩

end BedsGrid

/-! ## Further theorems on `FillParams` and `class Fill` -/

/-- C11: `set_bounding_box(b)` stores `b`, whatever box it is, in `bounding_box` and
leaves every other data member of the `Fill` as it was. -/
theorem set_bounding_box_frame (f : Fill) (b : BoundingBox) :
    (Fill.set_bounding_box f b).bounding_box = b ∧
    (Fill.set_bounding_box f b).layer_id = f.layer_id ∧
    (Fill.set_bounding_box f b).z = f.z ∧
    (Fill.set_bounding_box f b).spacing = f.spacing ∧
    (Fill.set_bounding_box f b).overlap = f.overlap ∧
    (Fill.set_bounding_box f b).angle = f.angle ∧
    (Fill.set_bounding_box f b).zigzag_infill_angles = f.zigzag_infill_angles ∧
    (Fill.set_bounding_box f b).link_max_length = f.link_max_length ∧
    (Fill.set_bounding_box f b).loop_clipping = f.loop_clipping ∧
    (Fill.set_bounding_box f b).adapt_fill_octree = f.adapt_fill_octree ∧
    (Fill.set_bounding_box f b).print_config = f.print_config ∧
    (Fill.set_bounding_box f b).print_object_config = f.print_object_config ∧
    Fill.set_bounding_box f b = { f with bounding_box := b } ∧
    (Fill.set_bounding_box Fill.Fill ⟨⟨5, 5⟩, ⟨-7, 0⟩⟩).bounding_box = ⟨⟨5, 5⟩, ⟨-7, 0⟩⟩ :=
  ⟨rfl, rfl, rfl, rfl, rfl, rfl, rfl, rfl, rfl, rfl, rfl, rfl, rfl, rfl⟩

/-- C12: a default-constructed `FillParams` has density 0, which lies in `[0, 1]`,
`anchor_length = anchor_length_max = 1000`, so that `anchor_length <= anchor_length_max`,
and selects neither mode: `full_infill()` and `dont_connect()` are both false. -/
theorem default_FillParams_modes :
    ({} : FillParams).density.isNaN = false ∧ ({} : FillParams).density.toRat = 0 ∧
    (0 : ℚ) ≤ ({} : FillParams).density.toRat ∧ ({} : FillParams).density.toRat ≤ 1 ∧
    ({} : FillParams).anchor_length.toRat = 1000 ∧
    ({} : FillParams).anchor_length_max.toRat = 1000 ∧
    ({} : FillParams).anchor_length = ({} : FillParams).anchor_length_max ∧
    F32.le ({} : FillParams).anchor_length ({} : FillParams).anchor_length_max = true ∧
    ({} : FillParams).full_infill = false ∧ ({} : FillParams).dont_connect = false := by
  have h0 : ({} : FillParams).density.toRat = 0 := F32.zero_toRat
  have h1 : ({} : FillParams).anchor_length.toRat = 1000 := F32.lit_1000_toRat
  have h2 : ({} : FillParams).anchor_length_max.toRat = 1000 := F32.lit_1000_toRat
  refine ⟨by decide, h0, ?_, ?_, h1, h2, rfl, by decide, by decide, by decide⟩
  · rw [h0]
  · rw [h0]
    norm_num

/-! ## Further theorems on the bed grid -/

namespace BedsGrid

/-- The square of `n + 1` fits in an `int` exactly when `n ≤ 46339`. -/
theorem le_of_sq_fits (n : Int) (h0 : 0 ≤ n) (h : (n + 1) * (n + 1) ≤ INT_MAX) :
    n ≤ 46339 := by
  have hI : INT_MAX = 2147483647 := rfl
  rw [hI] at h
  by_contra hcon
  have : 46340 ≤ n := by omega
  nlinarith

/-- Shell bounds for coordinates of any sign, up to the norm 46339. -/
theorem abs2index_shell (x y : Int) (hx : |x| ≤ 46339) (hy : |y| ≤ 46339) :
    max |x| |y| * max |x| |y| ≤ grid_coords_abs2index ⟨x, y⟩ ∧
    grid_coords_abs2index ⟨x, y⟩ ≤ max |x| |y| * max |x| |y| + 2 * max |x| |y| := by
  rw [abs2index_abs x y]
  exact abs2index_bounds |x| |y| (abs_nonneg x) (abs_nonneg y) hx hy

/-- C13: for coordinates `c = (x, y)` whose norm `n = max(|x|, |y|)` is so small that
`(n + 1)²` fits in an `int`, `grid_coords_abs2index(c)` depends on `(|x|, |y|)` only
and lies in `n², …, n² + 2n`; a cell of smaller norm has a strictly smaller index,
and the index is 0 for the cell `(0, 0)` only. -/
theorem abs2index_square_shells (c : GridCoords)
    (h : (max |c.x| |c.y| + 1) * (max |c.x| |c.y| + 1) ≤ INT_MAX) :
    (∀ c' : GridCoords, |c'.x| = |c.x| → |c'.y| = |c.y| →
      grid_coords_abs2index c' = grid_coords_abs2index c) ∧
    max |c.x| |c.y| * max |c.x| |c.y| ≤ grid_coords_abs2index c ∧
    grid_coords_abs2index c ≤ max |c.x| |c.y| * max |c.x| |c.y| + 2 * max |c.x| |c.y| ∧
    (∀ c' : GridCoords, (max |c'.x| |c'.y| + 1) * (max |c'.x| |c'.y| + 1) ≤ INT_MAX →
      max |c'.x| |c'.y| < max |c.x| |c.y| →
      grid_coords_abs2index c' < grid_coords_abs2index c) ∧
    (grid_coords_abs2index c = 0 ↔ c = ⟨0, 0⟩) := by
  obtain ⟨x, y⟩ := c
  simp only at h ⊢
  have hn0 : 0 ≤ max |x| |y| := le_max_of_le_left (abs_nonneg x)
  have hn := le_of_sq_fits _ hn0 h
  have hx : |x| ≤ 46339 := le_trans (le_max_left _ _) hn
  have hy : |y| ≤ 46339 := le_trans (le_max_right _ _) hn
  obtain ⟨b1, b2⟩ := abs2index_shell x y hx hy
  refine ⟨?_, b1, b2, ?_, ?_⟩
  · intro c' ex ey
    rw [abs2index_abs c'.x c'.y, abs2index_abs x y, ex, ey]
  · intro c' h' hlt
    have hn0' : 0 ≤ max |c'.x| |c'.y| := le_max_of_le_left (abs_nonneg _)
    have hn' := le_of_sq_fits _ hn0' h'
    obtain ⟨_, b2'⟩ := abs2index_shell c'.x c'.y (le_trans (le_max_left _ _) hn')
      (le_trans (le_max_right _ _) hn')
    have : max |c'.x| |c'.y| + 1 ≤ max |x| |y| := by omega
    show grid_coords_abs2index ⟨c'.x, c'.y⟩ < _
    nlinarith
  · constructor
    · intro hz
      rw [abs2index_abs x y] at hz
      obtain ⟨ex, ey⟩ := abs2index_eq_zero |x| |y| (abs_nonneg x) (abs_nonneg y) hx hy hz
      rw [abs_eq_zero.mp ex, abs_eq_zero.mp ey]
    · intro hc
      rw [hc]
      decide

/-- C13 (witness): the cell `(-3, 2)` of norm 3 has index 11, between 9 and 15,
above the index 8 of the cell `(2, -2)` of norm 2. -/
theorem abs2index_square_shells_witness :
    grid_coords_abs2index ⟨-3, 2⟩ = 11 ∧
    ((∀ c' : GridCoords, |c'.x| = |(-3 : Int)| → |c'.y| = |(2 : Int)| →
      grid_coords_abs2index c' = grid_coords_abs2index ⟨-3, 2⟩) ∧
    max |(-3 : Int)| |(2 : Int)| * max |(-3 : Int)| |(2 : Int)|
      ≤ grid_coords_abs2index ⟨-3, 2⟩ ∧
    grid_coords_abs2index ⟨-3, 2⟩ ≤
      max |(-3 : Int)| |(2 : Int)| * max |(-3 : Int)| |(2 : Int)|
        + 2 * max |(-3 : Int)| |(2 : Int)| ∧
    (∀ c' : GridCoords, (max |c'.x| |c'.y| + 1) * (max |c'.x| |c'.y| + 1) ≤ INT_MAX →
      max |c'.x| |c'.y| < max |(-3 : Int)| |(2 : Int)| →
      grid_coords_abs2index c' < grid_coords_abs2index ⟨-3, 2⟩) ∧
    (grid_coords_abs2index ⟨-3, 2⟩ = 0 ↔ (⟨-3, 2⟩ : GridCoords) = ⟨0, 0⟩)) ∧
    grid_coords_abs2index ⟨2, -2⟩ < grid_coords_abs2index ⟨-3, 2⟩ :=
  have h := abs2index_square_shells ⟨-3, 2⟩ (by decide)
  ⟨by decide, h, h.2.2.2.1 ⟨2, -2⟩ (by decide) (by decide)⟩

/-- The outcome of `index2grid_coords` on an `int` index does not depend on the fuel,
once there is fuel for 23170 loop tests; on `i ≥ 0` it is a throw exactly for a
non-zero remainder in a quadrant other than 0, 1, 2, 3. -/
theorem index2grid_coords_outcome (i : Int) (hi : IsInt32 i) :
    ∃ res, (∀ fuel, 23170 ≤ fuel → index2grid_coords fuel i = some res) ∧
      ((∃ msg, res = Except.error msg) ↔
        (i < 0 ∨ (4 ≤ Int.tdiv i quadrant_offset ∧ Int.tmod i quadrant_offset ≠ 0))) := by
  obtain ⟨hlo, hhi⟩ := hi
  by_cases hneg : i < 0
  · refine ⟨Except.error "Negative bed index cannot be translated to coords!", ?_, ?_⟩
    · intro fuel _
      unfold index2grid_coords
      rw [if_pos hneg]
    · exact ⟨fun _ => Or.inl hneg, fun _ => ⟨_, rfl⟩⟩
  · have h0 : 0 ≤ i := by omega
    have hdiv : Int.tdiv i 536870911 = i / 536870911 := Int.tdiv_eq_ediv h0 (by norm_num)
    have hmod : Int.tmod i 536870911 = i % 536870911 := Int.tmod_eq_emod h0 (by norm_num)
    rw [quadrant_offset_eq, hdiv, hmod]
    by_cases hr : i % 536870911 = 0
    · refine ⟨Except.ok ⟨0, 0⟩, ?_, ?_⟩
      · intro fuel _
        unfold index2grid_coords
        rw [if_neg hneg]
        simp only [quadrant_offset_eq]
        rw [hmod, if_pos hr]
      · constructor
        · rintro ⟨msg, hmsg⟩
          cases hmsg
        · rintro (h | ⟨_, h⟩)
          · exact absurd h hneg
          · exact absurd hr h
    · have hr' : Int.tmod i quadrant_offset ≠ 0 := by
        rw [quadrant_offset_eq, hmod]
        exact hr
      have hk : i / 536870911 = 0 ∨ i / 536870911 = 1 ∨ i / 536870911 = 2 ∨
          i / 536870911 = 3 ∨ i / 536870911 = 4 := by omega
      obtain ⟨u, v, hu, hv, hu', hv', _, habs, hres⟩ :=
        index2grid_coords_of 23170 i h0 (le_refl _) hr'
      have same : ∀ fuel, 23170 ≤ fuel →
          index2grid_coords fuel i = index2grid_coords 23170 i := by
        intro fuel hf
        obtain ⟨u2, v2, hu2, hv2, hu2', hv2', _, habs2, hres2⟩ :=
          index2grid_coords_of fuel i h0 hf hr'
        obtain ⟨eu, ev⟩ := abs2index_inj u2 v2 u v hu2 hv2 (by omega) (by omega) hu hv
          (by omega) (by omega) (habs2.trans habs.symm)
        rw [hres2, hres, eu, ev]
      rw [quadrant_offset_eq, hdiv] at hres
      rcases hk with hk | hk | hk | hk | hk
      · rw [hk] at hres ⊢
        simp only [show ¬ ((0 : Int) = 1) by norm_num, show ¬ ((0 : Int) = 2) by norm_num,
          show ¬ ((0 : Int) = 3) by norm_num, if_false, ne_eq, not_true_eq_false] at hres
        refine ⟨Except.ok ⟨u, v⟩, fun fuel hf => (same fuel hf).trans hres, ?_⟩
        constructor
        · rintro ⟨msg, hmsg⟩
          cases hmsg
        · rintro (h | ⟨h, _⟩)
          · exact absurd h hneg
          · norm_num at h
      · rw [hk] at hres ⊢
        simp only [if_true] at hres
        refine ⟨Except.ok ⟨u, -v⟩, fun fuel hf => (same fuel hf).trans hres, ?_⟩
        constructor
        · rintro ⟨msg, hmsg⟩
          cases hmsg
        · rintro (h | ⟨h, _⟩)
          · exact absurd h hneg
          · norm_num at h
      · rw [hk] at hres ⊢
        simp only [show ¬ ((2 : Int) = 1) by norm_num, if_false, if_true] at hres
        refine ⟨Except.ok ⟨-u, v⟩, fun fuel hf => (same fuel hf).trans hres, ?_⟩
        constructor
        · rintro ⟨msg, hmsg⟩
          cases hmsg
        · rintro (h | ⟨h, _⟩)
          · exact absurd h hneg
          · norm_num at h
      · rw [hk] at hres ⊢
        simp only [show ¬ ((3 : Int) = 1) by norm_num, show ¬ ((3 : Int) = 2) by norm_num,
          if_false, if_true] at hres
        refine ⟨Except.ok ⟨-u, -v⟩, fun fuel hf => (same fuel hf).trans hres, ?_⟩
        constructor
        · rintro ⟨msg, hmsg⟩
          cases hmsg
        · rintro (h | ⟨h, _⟩)
          · exact absurd h hneg
          · norm_num at h
      · rw [hk] at hres ⊢
        simp only [show ¬ ((4 : Int) = 1) by norm_num, show ¬ ((4 : Int) = 2) by norm_num,
          show ¬ ((4 : Int) = 3) by norm_num, if_false, ne_eq,
          show ¬ ((4 : Int) = 0) by norm_num, not_false_eq_true, if_true] at hres
        refine ⟨Except.error "Impossible bed index > max int!",
          fun fuel hf => (same fuel hf).trans hres, ?_⟩
        exact ⟨fun _ => Or.inr ⟨le_refl _, hr⟩, fun _ => ⟨_, rfl⟩⟩

/-- C14: for every `int` index `i`, `index2grid_coords(i)` ends (its loop within 23170
tests) with one outcome, which is a throw exactly when `i < 0`, or
`i / quadrant_offset >= 4` and `i % quadrant_offset != 0`, and coordinates
otherwise; `4 * quadrant_offset = 2147483644` returns `(0, 0)`, while 2147483645,
2147483646 and 2147483647 throw. -/
theorem index2grid_coords_throws_iff (i : Int) (hi : IsInt32 i) :
    (∃ res, (∀ fuel, 23170 ≤ fuel → index2grid_coords fuel i = some res) ∧
      ((∃ msg, res = Except.error msg) ↔
        (i < 0 ∨ (4 ≤ Int.tdiv i quadrant_offset ∧ Int.tmod i quadrant_offset ≠ 0))) ∧
      ((∃ c, res = Except.ok c) ↔
        ¬ (i < 0 ∨ (4 ≤ Int.tdiv i quadrant_offset ∧ Int.tmod i quadrant_offset ≠ 0)))) ∧
    4 * quadrant_offset = 2147483644 ∧
    (∀ fuel, index2grid_coords fuel 2147483644 = some (Except.ok ⟨0, 0⟩)) ∧
    (∀ fuel, 23170 ≤ fuel → index2grid_coords fuel 2147483645 =
      some (Except.error "Impossible bed index > max int!")) ∧
    (∀ fuel, 23170 ≤ fuel → index2grid_coords fuel 2147483646 =
      some (Except.error "Impossible bed index > max int!")) ∧
    (∀ fuel, 23170 ≤ fuel → index2grid_coords fuel 2147483647 =
      some (Except.error "Impossible bed index > max int!")) := by
  have fixed : ∀ j : Int, IsInt32 j → ∀ r, index2grid_coords 23170 j = some r →
      ∀ fuel, 23170 ≤ fuel → index2grid_coords fuel j = some r := by
    intro j hj r hr fuel hf
    obtain ⟨res, hres, _⟩ := index2grid_coords_outcome j hj
    rw [hres fuel hf, ← hres 23170 (le_refl _), hr]
  refine ⟨?_, by decide, ?_, fixed _ (by decide) _ (by decide),
    fixed _ (by decide) _ (by decide), fixed _ (by decide) _ (by decide)⟩
  · obtain ⟨res, hres, hiff⟩ := index2grid_coords_outcome i hi
    refine ⟨res, hres, hiff, ?_⟩
    rw [← hiff]
    cases res with
    | error msg =>
      constructor
      · rintro ⟨c, hc⟩
        cases hc
      · intro h
        exact absurd ⟨msg, rfl⟩ h
    | ok c =>
      constructor
      · rintro _ ⟨msg, hmsg⟩
        cases hmsg
      · intro _
        exact ⟨c, rfl⟩
  · intro fuel
    unfold index2grid_coords
    rw [if_neg (by norm_num)]
    simp only [quadrant_offset_eq]
    rw [if_pos (by decide)]

/-- C14 (witness): the index `quadrant_offset + 2 = 536870913` is the cell `(0, -1)`,
and `-5` throws. -/
theorem index2grid_coords_throws_iff_witness :
    (∃ res, (∀ fuel, 23170 ≤ fuel → index2grid_coords fuel 536870913 = some res) ∧
      ((∃ msg, res = Except.error msg) ↔
        ((536870913 : Int) < 0 ∨ (4 ≤ Int.tdiv 536870913 quadrant_offset ∧
          Int.tmod 536870913 quadrant_offset ≠ 0))) ∧
      ((∃ c, res = Except.ok c) ↔
        ¬ ((536870913 : Int) < 0 ∨ (4 ≤ Int.tdiv 536870913 quadrant_offset ∧
          Int.tmod 536870913 quadrant_offset ≠ 0)))) ∧
    index2grid_coords 23170 536870913 = some (Except.ok ⟨0, -1⟩) ∧
    index2grid_coords 23170 (-5) =
      some (Except.error "Negative bed index cannot be translated to coords!") :=
  ⟨(index2grid_coords_throws_iff 536870913 (by decide)).1, by decide, by decide⟩

end BedsGrid

/-! ## Theorems on `class MultipleBeds` -/

namespace MultipleBeds

open BedsGrid

/-- The running maximum of the loop of `inst_map_updated`: it is at least its start
value and every bed index met, and it is the start value or one of the bed indices. -/
theorem foldl_max_spec (l : List (Nat × Int)) :
    ∀ a : Int, a ≤ l.foldl (fun m e => max m e.2) a ∧
      (∀ e ∈ l, e.2 ≤ l.foldl (fun m e => max m e.2) a) ∧
      (l.foldl (fun m e => max m e.2) a = a ∨
        ∃ e ∈ l, e.2 = l.foldl (fun m e => max m e.2) a) := by
  induction l with
  | nil =>
    intro a
    simp
  | cons x rest ih =>
    intro a
    obtain ⟨h1, h2, h3⟩ := ih (max a x.2)
    simp only [List.foldl_cons, List.mem_cons]
    refine ⟨le_trans (le_max_left _ _) h1, ?_, ?_⟩
    · rintro e (he | he)
      · rw [he]
        exact le_trans (le_max_right _ _) h1
      · exact h2 e he
    · rcases h3 with h3 | ⟨e, he, h3⟩
      · rcases max_choice a x.2 with hm | hm
        · left
          rw [h3, hm]
        · right
          exact ⟨x, Or.inl rfl, by rw [h3, hm]⟩
      · right
        exact ⟨e, Or.inr he, h3⟩

/-- The entries of the map after `m[id] = bed_idx` are old entries or the new one. -/
theorem mem_map_assign (l : List (Nat × Int)) (id : Nat) (bed_idx : Int) :
    ∀ e ∈ map_assign l id bed_idx, e ∈ l ∨ e = (id, bed_idx) := by
  induction l with
  | nil =>
    intro e he
    simp only [map_assign, List.mem_singleton] at he
    exact Or.inr he
  | cons x rest ih =>
    intro e he
    unfold map_assign at he
    split at he
    · simp only [List.mem_cons] at he ⊢
      rcases he with he | he | he
      · exact Or.inr he
      · exact Or.inl (Or.inl he)
      · exact Or.inl (Or.inr he)
    · split at he
      · simp only [List.mem_cons] at he ⊢
        rcases he with he | he
        · exact Or.inr he
        · exact Or.inl (Or.inr he)
      · simp only [List.mem_cons] at he ⊢
        rcases he with he | he
        · exact Or.inl (Or.inl he)
        · rcases ih e he with h | h
          · exact Or.inl (Or.inr h)
          · exact Or.inr h

/-- The bound that `set_instance_bed` asserts, `bed_idx < get_max_beds()`, holds of
every entry of the map as long as every call respects the assertion. -/
theorem set_instance_bed_keeps_bound (max_beds : Int) (s : MultipleBeds) (id : Nat)
    (bed_idx : Int) (hs : ∀ e ∈ s.m_inst_to_bed, e.2 < max_beds) (hb : bed_idx < max_beds) :
    (∀ e ∈ (s.set_instance_bed id bed_idx).m_inst_to_bed, e.2 < max_beds) ∧
    (∀ e ∈ s.clear_inst_map.m_inst_to_bed, e.2 < max_beds) := by
  constructor
  · intro e he
    rcases mem_map_assign s.m_inst_to_bed id bed_idx e he with h | h
    · exact hs e h
    · rw [h]
      exact hb
  · intro e he
    simp [clear_inst_map] at he

/-- The effect of `inst_map_updated` in `int` arithmetic, for the running maximum `M`. -/
theorem inst_map_updated_wrapping (max_beds : Int) (s : MultipleBeds) (M : Int)
    (hM : s.m_inst_to_bed.foldl (fun m e => max m e.2) 0 = M) :
    (inst_map_updated max_beds s).m_inst_to_bed = s.m_inst_to_bed ∧
    (inst_map_updated max_beds s).m_number_of_beds = add32 M 1 ∧
    (inst_map_updated max_beds s).m_active_bed ≤
      sub32 (inst_map_updated max_beds s).m_number_of_beds 1 := by
  unfold inst_map_updated
  simp only [hM, request_next_bed, get_number_of_beds]
  have hw : ∀ z : Int, -2147483648 ≤ wrap32 z ∧ wrap32 z ≤ 2147483647 := by
    intro z
    unfold wrap32
    omega
  by_cases h1 : s.m_number_of_beds ≠ add32 M 1
  · rw [if_pos h1]
    simp only []
    split
    · exact ⟨rfl, rfl, le_refl _⟩
    · exact ⟨rfl, rfl, le_refl _⟩
  · rw [if_neg h1]
    have h1' : s.m_number_of_beds = add32 M 1 := not_not.mp h1
    split
    · exact ⟨rfl, h1', le_refl _⟩
    · rename_i h2
      refine ⟨rfl, h1', ?_⟩
      have hb := hw (M + 1)
      rw [h1'] at h2 ⊢
      unfold add32 at h2 ⊢
      unfold sub32
      generalize wrap32 (M + 1) = nb at h2 hb ⊢
      unfold wrap32
      omega

/-- C15: after `inst_map_updated()`, for the number `M = max(0, largest bed index stored
in m_inst_to_bed)`: the map is unchanged, `m_number_of_beds` is `M + 1` and
`m_active_bed <= m_number_of_beds - 1`, in the arithmetic of `int` for every state,
and in that of the integers for every state whose stored bed indices obey the
assertion `bed_idx < get_max_beds()` of `set_instance_bed`. -/
theorem inst_map_updated_spec (max_beds : Int) (s : MultipleBeds) :
    ∃ M : Int,
      (0 ≤ M ∧ (∀ e ∈ s.m_inst_to_bed, e.2 ≤ M) ∧ (M = 0 ∨ ∃ e ∈ s.m_inst_to_bed, e.2 = M)) ∧
      (inst_map_updated max_beds s).m_inst_to_bed = s.m_inst_to_bed ∧
      (inst_map_updated max_beds s).m_number_of_beds = add32 M 1 ∧
      (inst_map_updated max_beds s).m_active_bed ≤
        sub32 (inst_map_updated max_beds s).m_number_of_beds 1 ∧
      ((IsInt32 max_beds ∧ ∀ e ∈ s.m_inst_to_bed, e.2 < max_beds) →
        (inst_map_updated max_beds s).m_number_of_beds = 1 + M ∧
        (inst_map_updated max_beds s).m_active_bed ≤
          (inst_map_updated max_beds s).m_number_of_beds - 1) := by
  obtain ⟨h0, hall, hatt⟩ := foldl_max_spec s.m_inst_to_bed 0
  obtain ⟨e1, e2, e3⟩ := inst_map_updated_wrapping max_beds s _ rfl
  refine ⟨_, ⟨h0, hall, hatt⟩, e1, e2, e3, ?_⟩
  rintro ⟨⟨_, hmax⟩, hinv⟩
  generalize s.m_inst_to_bed.foldl (fun m e => max m e.2) 0 = M at h0 hall hatt e2 e3
  have hM : M < 2147483647 := by
    rcases hatt with h | ⟨e, he, h⟩
    · omega
    · have := hinv e he
      omega
  have hnb : add32 M 1 = M + 1 := wrap32_eq_self _ ⟨by omega, by omega⟩
  rw [e2, hnb] at e3
  have hsub : sub32 (M + 1) 1 = M := by
    unfold sub32 wrap32
    omega
  rw [hsub] at e3
  rw [e2, hnb]
  exact ⟨by ring, by omega⟩

/-- C15 (witness): with bed indices 2, 0 and 4 stored, 9 beds at most, one bed
counted and bed 7 active, the call counts 5 beds and makes bed 4 active. -/
theorem inst_map_updated_spec_witness :
    (∃ M : Int,
      (0 ≤ M ∧ (∀ e ∈ [((3 : Nat), (2 : Int)), (8, 0), (11, 4)], e.2 ≤ M) ∧
        (M = 0 ∨ ∃ e ∈ [((3 : Nat), (2 : Int)), (8, 0), (11, 4)], e.2 = M)) ∧
      (inst_map_updated 9 ⟨[(3, 2), (8, 0), (11, 4)], 1, 7, true⟩).m_inst_to_bed
        = [(3, 2), (8, 0), (11, 4)] ∧
      (inst_map_updated 9 ⟨[(3, 2), (8, 0), (11, 4)], 1, 7, true⟩).m_number_of_beds
        = add32 M 1 ∧
      (inst_map_updated 9 ⟨[(3, 2), (8, 0), (11, 4)], 1, 7, true⟩).m_active_bed ≤
        sub32 (inst_map_updated 9 ⟨[(3, 2), (8, 0), (11, 4)], 1, 7, true⟩).m_number_of_beds 1 ∧
      ((IsInt32 9 ∧ ∀ e ∈ [((3 : Nat), (2 : Int)), (8, 0), (11, 4)], e.2 < 9) →
        (inst_map_updated 9 ⟨[(3, 2), (8, 0), (11, 4)], 1, 7, true⟩).m_number_of_beds
          = 1 + M ∧
        (inst_map_updated 9 ⟨[(3, 2), (8, 0), (11, 4)], 1, 7, true⟩).m_active_bed ≤
          (inst_map_updated 9 ⟨[(3, 2), (8, 0), (11, 4)], 1, 7, true⟩).m_number_of_beds - 1)) ∧
    (IsInt32 9 ∧ ∀ e ∈ [((3 : Nat), (2 : Int)), (8, 0), (11, 4)], e.2 < 9) ∧
    inst_map_updated 9 ⟨[(3, 2), (8, 0), (11, 4)], 1, 7, true⟩
      = ⟨[(3, 2), (8, 0), (11, 4)], 5, 4, false⟩ :=
  ⟨inst_map_updated_spec 9 ⟨[(3, 2), (8, 0), (11, 4)], 1, 7, true⟩, by decide, by decide⟩

/-- Without the assertion of `set_instance_bed` the count is the one of `int`
arithmetic only: a stored bed index `INT_MAX` makes `max_bed_idx + 1` wrap around. -/
theorem inst_map_updated_wraps :
    (inst_map_updated 9 ⟨[(3, 2147483647)], 1, 0, true⟩).m_number_of_beds = -2147483648 ∧
    (inst_map_updated 9 ⟨[(3, 2147483647)], 1, 0, true⟩).m_active_bed = 2147483647 := by
  decide

end MultipleBeds

/-! ## Theorems on `GLVersion` -/

namespace GUI.GLCanvas3DManager

/-- C16: `is_greater_or_equal_to(major, minor)` is true exactly when
`(vn_major, vn_minor)` is at least `(major, minor)` in the lexicographic order; a
default-constructed version, `0.0`, satisfies it for `(0, 0)` only. -/
theorem is_greater_or_equal_to_iff_lex :
    (∀ (v : GLVersion) (major minor : Nat),
      (v.is_greater_or_equal_to major minor = true ↔
        (major < v.vn_major ∨ (major = v.vn_major ∧ minor ≤ v.vn_minor))) ∧
      (v.is_greater_or_equal_to major minor = true ↔
        toLex (major, minor) ≤ toLex (v.vn_major, v.vn_minor))) ∧
    GLVersion.GLVersion.vn_major = 0 ∧ GLVersion.GLVersion.vn_minor = 0 ∧
    (∀ major minor : Nat,
      GLVersion.GLVersion.is_greater_or_equal_to major minor = true ↔
        (major = 0 ∧ minor = 0)) := by
  have key : ∀ (v : GLVersion) (major minor : Nat),
      v.is_greater_or_equal_to major minor = true ↔
        (major < v.vn_major ∨ (major = v.vn_major ∧ minor ≤ v.vn_minor)) := by
    intro v major minor
    unfold GLVersion.is_greater_or_equal_to
    by_cases h1 : v.vn_major < major
    · rw [if_pos h1]
      constructor
      · intro h
        cases h
      · intro h
        omega
    · rw [if_neg h1]
      by_cases h2 : v.vn_major > major
      · rw [if_pos h2]
        exact ⟨fun _ => Or.inl h2, fun _ => rfl⟩
      · rw [if_neg h2, decide_eq_true_eq]
        constructor
        · intro h
          exact Or.inr ⟨by omega, h⟩
        · intro h
          omega
  refine ⟨fun v major minor => ⟨key v major minor, ?_⟩, rfl, rfl, ?_⟩
  · rw [key, Prod.Lex.le_iff]
  · intro major minor
    rw [key]
    show (major < 0 ∨ major = 0 ∧ minor ≤ 0) ↔ _
    omega

end GUI.GLCanvas3DManager

end Slic3r
